import Mathlib

/-! The rviz arrow marker: `ArrowMarker::onNewMessage`.

A shallow embedding of `src/rviz/default_plugin/markers/arrow_marker.cpp`.

* Numbers.  The C++ code computes in `double` (message fields, tf points) and in `float`
  (`Ogre::Real`, colours, the locals `distance`, `head_length`, `shaft_length`).  The two
  scalar types are the type parameters `D` and `F` of the embedding, and every arithmetic
  step the code takes on them (products, comparisons with zero, sums, the narrowing from
  `double` to `float`) is a field of `Arith D F`; the functions of the Ogre library are
  the fields of `OgreLibrary F`.  Nothing is assumed of them, so what is proved of
  `onNewMessage` for every `Arith` and `OgreLibrary` holds of IEEE arithmetic with its
  rounding, infinities and NaN.  Exact arithmetic is the instance `Arith.exact`,
  `OgreLibrary.exact` over a linearly ordered field.
* Collaborators.  The scene node, the arrow primitive, the owning display, the logger, the
  selection manager and the TF client are objects outside the file.  Every call made on
  one of them is recorded, in program order, in a list of `Event`s; the marker's own
  members (`owner_`, `arrow_`, `coll_`) are the fields of `ArrowMarker`.
* Messages.  `Marker D F` stands for the messages whose `type` tag is `ARROW`, which is
  what the `ROS_ASSERT` on entry requires of the caller.
-/

namespace rviz

/-! ## Scalars and the Ogre library -/

/-- The record `Ogre::Vector3`; at the scalar type `D` also `geometry_msgs::Vector3`. -/
structure Vector3 (K : Type) where
  x : K
  y : K
  z : K
deriving DecidableEq, Repr

/-- The record `Ogre::Quaternion`, in Ogre's field order `w, x, y, z`; at the scalar type
`D` also `geometry_msgs::Quaternion`. -/
structure Quaternion (K : Type) where
  w : K
  x : K
  y : K
  z : K
deriving DecidableEq, Repr

/-- The arithmetic steps `onNewMessage` itself takes on `double` values (`D`) and `float`
values (`F`). -/
structure Arith (D F : Type) where
  /-- The product of two `double`s (line 91). -/
  mul : D → D → D
  /-- The comparison `x == 0.0` of a `double` with zero (line 91; negated, line 136). -/
  eqZero : D → Bool
  /-- The sum of two `double`s, the componentwise step of `tf::Point + tf::Point`
  (lines 113-114). -/
  add : D → D → D
  /-- The conversion of a `double` to `float` (lines 124-125, 138, 141). -/
  toFloat : D → F
  /-- The value stored by `float head_length = 0.1*distance` (line 135). -/
  tenth : F → F
  /-- The difference of two `float`s (line 140). -/
  sub : F → F → F
  /-- The unary minus on a `float` (line 97). -/
  neg : F → F
  /-- The literal `1.0f` (line 133). -/
  one : F

/-- The functions and constants of the Ogre library (not part of the repository) that
`onNewMessage` uses. -/
structure OgreLibrary (F : Type) where
  /-- The operator `Ogre::Vector3::operator-`. -/
  sub : Vector3 F → Vector3 F → Vector3 F
  /-- The function `Ogre::Vector3::length`. -/
  length : Vector3 F → F
  /-- The vector left in place by `Ogre::Vector3::normalise`. -/
  normalise : Vector3 F → Vector3 F
  /-- The function `Ogre::Vector3::getRotationTo`, without fallback axis. -/
  getRotationTo : Vector3 F → Vector3 F → Quaternion F
  /-- The constant `Ogre::Vector3::NEGATIVE_UNIT_Z`. -/
  NEGATIVE_UNIT_Z : Vector3 F
  /-- The constant `Ogre::Vector3::UNIT_Y`. -/
  UNIT_Y : Vector3 F
  /-- The constant `Ogre::Math::HALF_PI`. -/
  HALF_PI : F
  /-- The constructor `Ogre::Quaternion(Radian, Vector3)`. -/
  FromAngleAxis : F → Vector3 F → Quaternion F
  /-- The operator `Ogre::Quaternion::operator*`. -/
  mul : Quaternion F → Quaternion F → Quaternion F

/-! ## Messages -/

/-- The record `geometry_msgs::Point`; also used for `tf::Point`. -/
structure Point (K : Type) where
  x : K
  y : K
  z : K
deriving DecidableEq, Repr

/-- The record `geometry_msgs::Pose`. -/
structure Pose (K : Type) where
  position : Point K
  orientation : Quaternion K
deriving DecidableEq, Repr

/-- The record `std_msgs::ColorRGBA`. -/
structure ColorRGBA (K : Type) where
  r : K
  g : K
  b : K
  a : K
deriving DecidableEq, Repr

/-- The record `roslib::Header`, restricted to the fields the code reads. -/
structure Header where
  stamp : Nat
  frame_id : String
deriving DecidableEq, Repr

/-- The record `visualization_msgs::Marker` for markers of type `ARROW`, restricted to the
fields `onNewMessage` reads: `double` fields over `D`, the `float` colour over `F`. -/
structure Marker (D F : Type) where
  header : Header
  ns : String
  id : Int
  pose : Pose D
  scale : Vector3 D
  color : ColorRGBA F
  points : List (Point D)
deriving DecidableEq, Repr

/-- The pair `MarkerID(ns, id)`. -/
structure MarkerID where
  ns : String
  id : Int
deriving DecidableEq, Repr

/-- The record `tf::Stamped<tf::Point>`: a point with the time and the frame it is in. -/
structure Stamped (K : Type) where
  data : Point K
  stamp : Nat
  frame_id : String
deriving DecidableEq, Repr

/-- Modelled from the spec: the operator `tf::Point + tf::Point` (tf library, not under
src/), componentwise: "points[0] + pose.position". -/
def Point.add {D F : Type} (A : Arith D F) (a b : Point D) : Point D :=
  ⟨A.add a.x b.x, A.add a.y b.y, A.add a.z b.z⟩

instance {K : Type} [Zero K] : Inhabited (Point K) := ⟨⟨0, 0, 0⟩⟩

/-! ## Collaborators -/

/-- The severities of `status_levels`. -/
inductive StatusLevel where
  | Ok
  | Warn
  | Error
deriving DecidableEq, Repr

/-- One call made by `onNewMessage` on an object outside the file. -/
inductive Event (D F : Type) where
  /-- The call `owner_->setMarkerStatus(id, level, text)`. -/
  | setMarkerStatus (id : MarkerID) (level : StatusLevel) (text : String)
  /-- The call `ROS_DEBUG(text)`. -/
  | rosDebug (text : String)
  /-- The statement `delete arrow_` on a non-null pointer. -/
  | deleteArrow
  /-- The statement `new ogre_tools::Arrow(scene manager, scene_node_)`. -/
  | newArrow
  /-- The call `createCollisionForObject(arrow_, handler for MarkerID(ns, id), coll_)`. -/
  | createCollisionForObject (id : MarkerID) (coll : Nat)
  /-- The call `getTFClient()->transformPoint(target_frame, stamped_in, out)`. -/
  | transformPoint (target_frame : String) (stamped_in : Stamped D)
  /-- The call `scene_node_->setPosition(v)`. -/
  | setPosition (v : Vector3 F)
  /-- The call `scene_node_->setOrientation(q)`. -/
  | setOrientation (q : Quaternion F)
  /-- The call `arrow_->setScale(v)`. -/
  | setScale (v : Vector3 F)
  /-- The call `arrow_->set(shaft_length, shaft_radius, head_length, head_radius)`. -/
  | set (shaft_length shaft_radius head_length head_radius : F)
  /-- The call `arrow_->setColor(r, g, b, a)`. -/
  | setColor (r g b a : F)
deriving DecidableEq, Repr

/-- The services reached through `vis_manager_`, and the base-class helper
`MarkerBase::transform`, as the functions they compute. -/
structure VisualizationManager (D F : Type) where
  /-- The call `getFixedFrame()`. -/
  getFixedFrame : String
  /-- The call `getTFClient()->transformPoint`: the transformed point, or the `what()` of
  the `tf::TransformException` it throws. -/
  transformPoint : String → Stamped D → Except String (Point D)
  /-- The handle returned by `getSelectionManager()->createCollisionForObject`. -/
  createCollisionForObject : MarkerID → Nat → Nat
  /-- The outputs `pos, orient, scale` of `MarkerBase::transform(message, pos, orient, scale)`. -/
  transform : Marker D F → Vector3 F × Quaternion F × Vector3 F

/-- Modelled from the spec: `MarkerBase::transform` (marker_base.cpp, not under src/).  In
the pose-based branch the spec gives "position = pose.position", the orientation
"pose.orientation" before the extra rotation, and "uniform_scale = scale"; the `double`
fields of the message become the `float` fields of the Ogre records. -/
def MarkerBase.transform {D F : Type} (A : Arith D F) (message : Marker D F) :
    Vector3 F × Quaternion F × Vector3 F :=
  (⟨A.toFloat message.pose.position.x, A.toFloat message.pose.position.y,
      A.toFloat message.pose.position.z⟩,
   ⟨A.toFloat message.pose.orientation.w, A.toFloat message.pose.orientation.x,
      A.toFloat message.pose.orientation.y, A.toFloat message.pose.orientation.z⟩,
   ⟨A.toFloat message.scale.x, A.toFloat message.scale.y, A.toFloat message.scale.z⟩)

/-- The members of an `ArrowMarker` that `onNewMessage` reads or writes. -/
structure ArrowMarker where
  /-- Whether `owner_` is non-null. -/
  owner_ : Bool
  /-- Whether `arrow_` is non-null. -/
  arrow_ : Bool
  /-- The collision object handle `coll_`. -/
  coll_ : Nat
  /-- The value of `getID()`. -/
  getID : MarkerID
  /-- The value of `getStringID()`. -/
  getStringID : String
deriving DecidableEq, Repr

/-! ## `ArrowMarker::onNewMessage` -/

section Code

variable {D F : Type} [Inhabited (Point D)]

/-- The text of the `ROS_DEBUG` call in the `catch` clause. -/
def transformErrorText (vm : VisualizationManager D F) (new_message : Marker D F)
    (what : String) : String :=
  "Error transforming marker [" ++ new_message.ns ++ "/" ++ toString new_message.id ++
    "] from frame [" ++ new_message.header.frame_id ++ "] to frame [" ++ vm.getFixedFrame ++
    "]: " ++ what ++ "\n"

/-- The function `ArrowMarker::onNewMessage`: the marker after the call and the calls made
on the collaborators, in order. -/
def onNewMessage (A : Arith D F) (O : OgreLibrary F) (vm : VisualizationManager D F)
    (self : ArrowMarker) (_old_message : Option (Marker D F)) (new_message : Marker D F) :
    ArrowMarker × List (Event D F) :=
  if !new_message.points.isEmpty && new_message.points.length < 2 then
    let ss := "Arrow marker [" ++ self.getStringID ++
      "] only specified one point of a point to point arrow."
    ({ self with arrow_ := false },
      (if self.owner_ then [Event.setMarkerStatus self.getID StatusLevel.Error ss] else []) ++
      [Event.rosDebug ss] ++
      (if self.arrow_ then [Event.deleteArrow] else []))
  else
    -- if (!arrow_) { arrow_ = new ...; coll_ = ...createCollisionForObject(...); }
    let created : ArrowMarker × List (Event D F) :=
      if !self.arrow_ then
        let id := MarkerID.mk new_message.ns new_message.id
        ({ self with arrow_ := true, coll_ := vm.createCollisionForObject id self.coll_ },
          [Event.newArrow, Event.createCollisionForObject id self.coll_])
      else (self, [])
    let self1 := created.1
    let ev1 := created.2
    let tr := vm.transform new_message
    let pos := tr.1
    let orient := tr.2.1
    let scale := tr.2.2
    if new_message.points.isEmpty then
      let ev2 : List (Event D F) :=
        if self1.owner_ && A.eqZero (A.mul (A.mul new_message.scale.x new_message.scale.y)
            new_message.scale.z) then
          [Event.setMarkerStatus self1.getID StatusLevel.Warn "Scale of 0 in one of x/y/z"]
        else []
      let orient_x := O.FromAngleAxis (A.neg O.HALF_PI) O.UNIT_Y
      (self1, ev1 ++ ev2 ++
        [Event.setPosition pos, Event.setOrientation (O.mul orient orient_x),
         Event.setScale scale,
         Event.setColor new_message.color.r new_message.color.g new_message.color.b
           new_message.color.a])
    else
      let start_pos := new_message.pose.position
      let p1 := new_message.points.getD 0 default
      let p2 := new_message.points.getD 1 default
      let in1 : Stamped D :=
        ⟨p1.add A start_pos, new_message.header.stamp, new_message.header.frame_id⟩
      let in2 : Stamped D :=
        ⟨p2.add A start_pos, new_message.header.stamp, new_message.header.frame_id⟩
      match vm.transformPoint vm.getFixedFrame in1 with
      | Except.error e =>
        ({ self1 with arrow_ := false },
          ev1 ++ [Event.transformPoint vm.getFixedFrame in1,
            Event.rosDebug (transformErrorText vm new_message e), Event.deleteArrow])
      | Except.ok t_p1 =>
        match vm.transformPoint vm.getFixedFrame in2 with
        | Except.error e =>
          ({ self1 with arrow_ := false },
            ev1 ++ [Event.transformPoint vm.getFixedFrame in1,
              Event.transformPoint vm.getFixedFrame in2,
              Event.rosDebug (transformErrorText vm new_message e), Event.deleteArrow])
        | Except.ok t_p2 =>
          -- Ogre::Vector3 point1(t_p1.x(), t_p1.y(), t_p1.z()): double to float
          let point1 : Vector3 F := ⟨A.toFloat t_p1.x, A.toFloat t_p1.y, A.toFloat t_p1.z⟩
          let point2 : Vector3 F := ⟨A.toFloat t_p2.x, A.toFloat t_p2.y, A.toFloat t_p2.z⟩
          let direction := O.sub point2 point1
          let distance := O.length direction
          let direction := O.normalise direction
          let orient := O.getRotationTo O.NEGATIVE_UNIT_Z direction
          let head_length :=
            if !A.eqZero new_message.scale.z then A.toFloat new_message.scale.z
            else A.tenth distance
          let shaft_length := A.sub distance head_length
          (self1, ev1 ++ [Event.transformPoint vm.getFixedFrame in1,
            Event.transformPoint vm.getFixedFrame in2,
            Event.setPosition point1, Event.setOrientation orient,
            Event.setScale ⟨A.one, A.one, A.one⟩,
            Event.set shaft_length (A.toFloat new_message.scale.x) head_length
              (A.toFloat new_message.scale.y),
            Event.setColor new_message.color.r new_message.color.g new_message.color.b
              new_message.color.a])

end Code

/-! ## Exact arithmetic -/

/-- The operations of `Ogre::Math` that are not field operations. -/
structure OgreMath (K : Type) where
  /-- The function `Ogre::Math::Sqrt`. -/
  Sqrt : K → K
  /-- The function `Ogre::Math::Sin`. -/
  Sin : K → K
  /-- The function `Ogre::Math::Cos`. -/
  Cos : K → K
  /-- The constant `Ogre::Math::PI`. -/
  PI : K

section OgreModel

variable {K : Type} [LinearOrderedField K]

/-- Modelled from the spec: the constant `Ogre::Math::HALF_PI` (Ogre library, not under
src/), a quarter turn ("90°"), half of `PI`. -/
def OgreMath.HALF_PI (m : OgreMath K) : K := (1 / 2) * m.PI

/-- The constant `Ogre::Vector3::UNIT_X` (Ogre library, not under src/), the X axis. -/
def Vector3.UNIT_X : Vector3 K := ⟨1, 0, 0⟩

/-- Modelled from the spec: the constant `Ogre::Vector3::UNIT_Y` (Ogre library, not under
src/), "the Y axis". -/
def Vector3.UNIT_Y : Vector3 K := ⟨0, 1, 0⟩

/-- Modelled from the spec: the constant `Ogre::Vector3::NEGATIVE_UNIT_Z` (Ogre library, not
under src/), "the mesh's canonical -Z axis". -/
def Vector3.NEGATIVE_UNIT_Z : Vector3 K := ⟨0, 0, -1⟩

/-- Modelled from the spec: the constant `Ogre::Quaternion::IDENTITY` (Ogre library, not
under src/), the "identity rotation". -/
def Quaternion.IDENTITY : Quaternion K := ⟨1, 0, 0, 0⟩

/-- Modelled from the spec: the operator `Ogre::Vector3::operator-` (Ogre library, not under
src/), componentwise: "direction = transformed_p2 - transformed_p1". -/
def Vector3.sub (a b : Vector3 K) : Vector3 K := ⟨a.x - b.x, a.y - b.y, a.z - b.z⟩

/-- The function `Ogre::Vector3::dotProduct` (Ogre library, not under src/), the scalar
product; used by the model of `getRotationTo`. -/
def Vector3.dotProduct (a b : Vector3 K) : K := a.x * b.x + a.y * b.y + a.z * b.z

/-- The function `Ogre::Vector3::crossProduct` (Ogre library, not under src/), the vector
product; used by the model of `getRotationTo`. -/
def Vector3.crossProduct (a b : Vector3 K) : Vector3 K :=
  ⟨a.y * b.z - a.z * b.y, a.z * b.x - a.x * b.z, a.x * b.y - a.y * b.x⟩

/-- The function `Ogre::Vector3::squaredLength` (Ogre library, not under src/), the sum of
the squares of the components. -/
def Vector3.squaredLength (a : Vector3 K) : K := a.x * a.x + a.y * a.y + a.z * a.z

/-- Modelled from the spec: `Ogre::Vector3::length` (Ogre library, not under src/), the
Euclidean norm: "distance = |direction|". -/
def Vector3.length (m : OgreMath K) (a : Vector3 K) : K := m.Sqrt a.squaredLength

/-- Modelled from the spec: `Ogre::Vector3::normalise` (Ogre library, not under src/):
"normalize direction", the vector divided by its length; a vector of length zero is left as
it is.  The floating-point tolerance of the library is replaced by the exact test. -/
def Vector3.normalise (m : OgreMath K) (a : Vector3 K) : Vector3 K :=
  let fLength := a.length m
  if 0 < fLength then
    let fInvLength := 1 / fLength
    ⟨a.x * fInvLength, a.y * fInvLength, a.z * fInvLength⟩
  else a

/-- Modelled from the spec: the constructor `Ogre::Quaternion(Radian, Vector3)` (Ogre
library, not under src/): the rotation by `rfAngle` about the unit vector `rkAxis`, that is
`w = cos(angle/2)` and `(x, y, z) = sin(angle/2) * axis`. -/
def Quaternion.FromAngleAxis (m : OgreMath K) (rfAngle : K) (rkAxis : Vector3 K) :
    Quaternion K :=
  let fHalfAngle := (1 / 2) * rfAngle
  let fSin := m.Sin fHalfAngle
  ⟨m.Cos fHalfAngle, fSin * rkAxis.x, fSin * rkAxis.y, fSin * rkAxis.z⟩

/-- Modelled from the spec: `Ogre::Quaternion::operator*` (Ogre library, not under src/):
the product of quaternions, "pose.orientation * extra_rotation". -/
def Quaternion.mul (p q : Quaternion K) : Quaternion K :=
  ⟨p.w * q.w - p.x * q.x - p.y * q.y - p.z * q.z,
   p.w * q.x + p.x * q.w + p.y * q.z - p.z * q.y,
   p.w * q.y + p.y * q.w + p.z * q.x - p.x * q.z,
   p.w * q.z + p.z * q.w + p.x * q.y - p.y * q.x⟩

/-- The conjugate of a quaternion. -/
def Quaternion.conj (q : Quaternion K) : Quaternion K := ⟨q.w, -q.x, -q.y, -q.z⟩

/-- The squared norm of a quaternion. -/
def Quaternion.normSq (q : Quaternion K) : K := q.w * q.w + q.x * q.x + q.y * q.y + q.z * q.z

/-- The quaternion left in place by `Ogre::Quaternion::normalise` (Ogre library, not under
src/): the quaternion scaled by the inverse of the square root of its squared norm. -/
def Quaternion.normalise (m : OgreMath K) (q : Quaternion K) : Quaternion K :=
  let factor := 1 / m.Sqrt q.normSq
  ⟨q.w * factor, q.x * factor, q.y * factor, q.z * factor⟩

/-- A vector as a quaternion with no scalar part. -/
def Quaternion.ofVector (v : Vector3 K) : Quaternion K := ⟨0, v.x, v.y, v.z⟩

/-- The action of a unit quaternion on a vector, `q v q*`: what it means for an orientation
to "rotate" or "map" one vector onto another. -/
def Quaternion.rotate (q : Quaternion K) (v : Vector3 K) : Vector3 K :=
  let r := (q.mul (Quaternion.ofVector v)).mul q.conj
  ⟨r.x, r.y, r.z⟩

/-- Modelled from the spec: `Ogre::Vector3::getRotationTo` (Ogre library, not under src/):
the "shortest-arc rotation" taking the direction of this vector onto the direction of
`dest`.  Equal directions give the identity; opposite directions give a half turn about an
axis perpendicular to this vector; otherwise, with `d` the cosine of the angle and `c` the
cross product of the two unit vectors, the quaternion is `(s/2, c/s)` with
`s = sqrt(2(1+d))`, normalised.  The floating-point tolerances of the library are replaced
by the exact tests. -/
def Vector3.getRotationTo (m : OgreMath K) (self dest : Vector3 K) : Quaternion K :=
  let v0 := self.normalise m
  let v1 := dest.normalise m
  let d := v0.dotProduct v1
  if 1 ≤ d then Quaternion.IDENTITY
  else if d ≤ -1 then
    let axis := Vector3.UNIT_X.crossProduct self
    let axis := if axis.squaredLength = 0 then Vector3.UNIT_Y.crossProduct self else axis
    Quaternion.FromAngleAxis m m.PI (axis.normalise m)
  else
    let s := m.Sqrt ((1 + d) * 2)
    let invs := 1 / s
    let c := v0.crossProduct v1
    Quaternion.normalise m ⟨s * (1 / 2), c.x * invs, c.y * invs, c.z * invs⟩

/-- The library operations are exact where the two-point branch uses them: the square root
of a non-negative number is its non-negative root, and the cosine and sine of a quarter
turn are 0 and 1. -/
structure OgreMath.Exact (m : OgreMath K) : Prop where
  Sqrt_nonneg : ∀ x, 0 ≤ m.Sqrt x
  Sqrt_mul_self : ∀ x, 0 ≤ x → m.Sqrt x * m.Sqrt x = x
  Cos_half_PI : m.Cos ((1 / 2) * m.PI) = 0
  Sin_half_PI : m.Sin ((1 / 2) * m.PI) = 1

/-- Exact arithmetic: `double` and `float` are both the field `K`, products, sums and
differences are those of the field, and the conversion from `double` to `float` changes
nothing. -/
def Arith.exact : Arith K K where
  mul := fun x y => x * y
  eqZero := fun x => decide (x = 0)
  add := fun x y => x + y
  toFloat := fun x => x
  tenth := fun distance => (1 / 10) * distance
  sub := fun x y => x - y
  neg := fun x => -x
  one := 1

/-- The Ogre library in exact arithmetic, with the operations `m` of `Ogre::Math`. -/
def OgreLibrary.exact (m : OgreMath K) : OgreLibrary K where
  sub := Vector3.sub
  length := Vector3.length m
  normalise := Vector3.normalise m
  getRotationTo := Vector3.getRotationTo m
  NEGATIVE_UNIT_Z := Vector3.NEGATIVE_UNIT_Z
  UNIT_Y := Vector3.UNIT_Y
  HALF_PI := m.HALF_PI
  FromAngleAxis := Quaternion.FromAngleAxis m
  mul := Quaternion.mul

end OgreModel

/-! ## The narrowing from `double` to `float` -/

section Narrowing

variable {K : Type} [LinearOrderedField K] [FloorRing K]

/-- The integer nearest to `x`, the even one of the two when `x` lies half way. -/
def roundHalfEven (x : K) : ℤ :=
  if x - ⌊x⌋ < 1 / 2 then ⌊x⌋
  else if 1 / 2 < x - ⌊x⌋ then ⌊x⌋ + 1
  else if ⌊x⌋ % 2 = 0 then ⌊x⌋ else ⌊x⌋ + 1

/-- The IEEE 754 binary32 (`float`) value nearest to `x`, ties to even: significands of 24
bits, least exponent -126 (below it the subnormal spacing `2^-149`).  The overflow of the
format to infinity is not represented: this is the conversion on the values that round to
a finite binary32 value, those of magnitude below `2^128 - 2^103`. -/
def toBinary32 (x : K) : K :=
  if x = 0 then 0
  else
    let e := max (Int.log 2 |x|) (-126)
    (roundHalfEven (x / (2 : K) ^ (e - 23)) : K) * (2 : K) ^ (e - 23)

/-- Arithmetic that is exact except for the conversion from `double` to `float`, which
rounds to binary32. -/
def Arith.narrowing : Arith K K :=
  { (Arith.exact : Arith K K) with toFloat := toBinary32 }

end Narrowing

/-! ## Observations on the recorded calls -/

section Observers

variable {D F : Type}

/-- Whether the call is a report to the owning display. -/
def Event.isStatus : Event D F → Bool
  | Event.setMarkerStatus _ _ _ => true
  | _ => false

/-- Whether the call sets the scene node's position or orientation, or the arrow
primitive's scale, dimensions or colour. -/
def Event.appliesState : Event D F → Bool
  | Event.setPosition _ => true
  | Event.setOrientation _ => true
  | Event.setScale _ => true
  | Event.set _ _ _ _ => true
  | Event.setColor _ _ _ _ => true
  | _ => false

/-- The requests made to the transform service, in order: target frame and stamped point. -/
def transformRequests (evs : List (Event D F)) : List (String × Stamped D) :=
  evs.filterMap fun e =>
    match e with
    | Event.transformPoint target_frame stamped_in => some (target_frame, stamped_in)
    | _ => none

/-- The identities passed to the selection manager, in order. -/
def registrations (evs : List (Event D F)) : List MarkerID :=
  evs.filterMap fun e =>
    match e with
    | Event.createCollisionForObject id _ => some id
    | _ => none

/-- Whether an arrow primitive exists after the calls `evs`, given whether one existed
before them: the last `new` or `delete` decides. -/
def primitiveExists (initially : Bool) (evs : List (Event D F)) : Bool :=
  evs.foldl (fun exists_ e =>
    match e with
    | Event.newArrow => true
    | Event.deleteArrow => false
    | _ => exists_) initially

/-- The position the scene node is left with, when one was set. -/
def appliedPosition (evs : List (Event D F)) : Option (Vector3 F) :=
  (evs.filterMap fun e =>
    match e with
    | Event.setPosition v => some v
    | _ => none).getLast?

/-- The orientation the scene node is left with, when one was set. -/
def appliedOrientation (evs : List (Event D F)) : Option (Quaternion F) :=
  (evs.filterMap fun e =>
    match e with
    | Event.setOrientation q => some q
    | _ => none).getLast?

/-- The uniform scale the arrow primitive is left with, when one was set. -/
def appliedScale (evs : List (Event D F)) : Option (Vector3 F) :=
  (evs.filterMap fun e =>
    match e with
    | Event.setScale v => some v
    | _ => none).getLast?

/-- The dimensions the arrow primitive is left with, when they were set: shaft length,
shaft radius, head length, head radius. -/
def appliedDimensions (evs : List (Event D F)) : Option (F × F × F × F) :=
  (evs.filterMap fun e =>
    match e with
    | Event.set shaft_length shaft_radius head_length head_radius =>
      some (shaft_length, shaft_radius, head_length, head_radius)
    | _ => none).getLast?

/-- Every colour set on the arrow primitive, in order. -/
def colorsSet (evs : List (Event D F)) : List (ColorRGBA F) :=
  evs.filterMap fun e =>
    match e with
    | Event.setColor r g b a => some ⟨r, g, b, a⟩
    | _ => none

/-- The stamped point `points[i] + pose.position`, at `header.stamp` in `header.frame_id`. -/
def offsetPoint [Inhabited (Point D)] (A : Arith D F) (message : Marker D F) (i : Nat) :
    Stamped D :=
  ⟨(message.points.getD i default).add A message.pose.position, message.header.stamp,
    message.header.frame_id⟩

/-- The Euclidean distance between two points, with the library's square root. -/
def euclideanDistance {K : Type} [Add K] [Sub K] [Mul K] (m : OgreMath K) (a b : Point K) : K :=
  m.Sqrt ((b.x - a.x) * (b.x - a.x) + (b.y - a.y) * (b.y - a.y) + (b.z - a.z) * (b.z - a.z))

/-- The unit vector from `a` to `b`: the difference divided by the distance. -/
def unitVector {K : Type} [Add K] [Sub K] [Mul K] [Div K] (m : OgreMath K) (a b : Point K) :
    Vector3 K :=
  ⟨(b.x - a.x) / euclideanDistance m a b, (b.y - a.y) / euclideanDistance m a b,
    (b.z - a.z) / euclideanDistance m a b⟩

end Observers

/-! ## Runs: a sequence of messages delivered to one marker -/

section Runs

variable {D F : Type} [Inhabited (Point D)]

/-- One call of a run: the marker at entry, the two messages passed, and the calls made. -/
structure Call (D F : Type) where
  before : ArrowMarker
  old_message : Option (Marker D F)
  message : Marker D F
  events : List (Event D F)

/-- The calls of `onNewMessage` made when the messages are delivered in order to one
marker: each call starts from the marker the previous call left, and receives the
previously delivered message as `old_message`. -/
def run (A : Arith D F) (O : OgreLibrary F) (vm : VisualizationManager D F) :
    ArrowMarker → Option (Marker D F) → List (Marker D F) → List (Call D F)
  | _, _, [] => []
  | self, old_message, new_message :: rest =>
    let r := onNewMessage A O vm self old_message new_message
    ⟨self, old_message, new_message, r.2⟩ :: run A O vm r.1 (some new_message) rest

/-- Whether an arrow primitive exists after the calls of `calls`, given whether one existed
before them. -/
def primitiveAfter (initially : Bool) (calls : List (Call D F)) : Bool :=
  calls.foldl (fun exists_ c => primitiveExists exists_ c.events) initially

end Runs

/-! ## The common prefix of the branches -/

section Prefix

variable {D F : Type}

/-- The marker and the calls after the `if (!arrow_)` block of `onNewMessage`. -/
def afterCreation (vm : VisualizationManager D F) (self : ArrowMarker)
    (new_message : Marker D F) : ArrowMarker × List (Event D F) :=
  if self.arrow_ then (self, [])
  else
    ({ self with
        arrow_ := true
        coll_ := vm.createCollisionForObject ⟨new_message.ns, new_message.id⟩ self.coll_ },
      [Event.newArrow,
        Event.createCollisionForObject ⟨new_message.ns, new_message.id⟩ self.coll_])

/-- The status calls of the pose-based branch. -/
def scaleWarning (A : Arith D F) (self : ArrowMarker) (new_message : Marker D F) :
    List (Event D F) :=
  if self.owner_ = true ∧
      A.eqZero (A.mul (A.mul new_message.scale.x new_message.scale.y)
        new_message.scale.z) = true then
    [Event.setMarkerStatus self.getID StatusLevel.Warn "Scale of 0 in one of x/y/z"]
  else []

end Prefix

/-! ## Fixtures for concrete evaluation -/

section Fixtures

variable {K : Type} [LinearOrderedField K]

/-- A visualisation manager whose transform service is the identity, except that it has no
transform from the frame "/lost". -/
def fixtureManager : VisualizationManager K K where
  getFixedFrame := "/map"
  transformPoint := fun _ s =>
    if s.frame_id = "/lost" then Except.error "unknown frame" else Except.ok s.data
  createCollisionForObject := fun _ coll => coll + 1
  transform := MarkerBase.transform Arith.exact

/-- A marker object with the given `owner_` and `arrow_` flags. -/
def fixtureMarker (owner_ arrow_ : Bool) : ArrowMarker :=
  ⟨owner_, arrow_, 0, ⟨"demo", 7⟩, "demo/7"⟩

/-- A message in frame `frame_id` with the given scale and points, identity orientation,
pose position `(1, 2, 3)` and colour `(1, 1/2, 0, 1)`. -/
def fixtureMessage (frame_id : String) (scale : Vector3 K) (points : List (Point K)) :
    Marker K K :=
  ⟨⟨5, frame_id⟩, "demo", 7, ⟨⟨1, 2, 3⟩, Quaternion.IDENTITY⟩, scale, ⟨1, 1 / 2, 0, 1⟩, points⟩

end Fixtures

/-! ## The branches of `onNewMessage` -/

section Branches

variable {D F : Type} [Inhabited (Point D)]

/-- The single-point branch. -/
theorem onNewMessage_one (A : Arith D F) (O : OgreLibrary F) (vm : VisualizationManager D F)
    (self : ArrowMarker) (old_message : Option (Marker D F)) (new_message : Marker D F)
    (p : Point D) (hp : new_message.points = [p]) :
    onNewMessage A O vm self old_message new_message =
      ({ self with arrow_ := false },
        (if self.owner_ then
          [Event.setMarkerStatus self.getID StatusLevel.Error
            ("Arrow marker [" ++ self.getStringID ++
              "] only specified one point of a point to point arrow.")]
          else []) ++
        [Event.rosDebug ("Arrow marker [" ++ self.getStringID ++
          "] only specified one point of a point to point arrow.")] ++
        (if self.arrow_ then [Event.deleteArrow] else [])) := by
  simp [onNewMessage, hp]

/-- The pose-based branch. -/
theorem onNewMessage_nil (A : Arith D F) (O : OgreLibrary F) (vm : VisualizationManager D F)
    (self : ArrowMarker) (old_message : Option (Marker D F)) (new_message : Marker D F)
    (hp : new_message.points = []) :
    onNewMessage A O vm self old_message new_message =
      ((afterCreation vm self new_message).1,
        (afterCreation vm self new_message).2 ++ scaleWarning A self new_message ++
        [Event.setPosition (vm.transform new_message).1,
         Event.setOrientation (O.mul (vm.transform new_message).2.1
           (O.FromAngleAxis (A.neg O.HALF_PI) O.UNIT_Y)),
         Event.setScale (vm.transform new_message).2.2,
         Event.setColor new_message.color.r new_message.color.g new_message.color.b
           new_message.color.a]) := by
  cases ha : self.arrow_ <;> simp [onNewMessage, hp, ha, afterCreation, scaleWarning]

/-- The two-point branch when the first transform fails. -/
theorem onNewMessage_fail_first (A : Arith D F) (O : OgreLibrary F)
    (vm : VisualizationManager D F)
    (self : ArrowMarker) (old_message : Option (Marker D F)) (new_message : Marker D F)
    (h : 2 ≤ new_message.points.length) (e : String)
    (h1 : vm.transformPoint vm.getFixedFrame (offsetPoint A new_message 0) = Except.error e) :
    onNewMessage A O vm self old_message new_message =
      ({ (afterCreation vm self new_message).1 with arrow_ := false },
        (afterCreation vm self new_message).2 ++
        [Event.transformPoint vm.getFixedFrame (offsetPoint A new_message 0),
         Event.rosDebug (transformErrorText vm new_message e), Event.deleteArrow]) := by
  have hg : ¬ new_message.points.length < 2 := by omega
  have hne : new_message.points ≠ [] := by
    intro h0
    simp [h0] at h
  simp only [offsetPoint, List.getD_eq_getElem?_getD] at h1
  cases ha : self.arrow_ <;>
    simp [onNewMessage, hg, hne, h1, ha, afterCreation, offsetPoint]

/-- The two-point branch when the first transform succeeds and the second fails. -/
theorem onNewMessage_fail_second (A : Arith D F) (O : OgreLibrary F)
    (vm : VisualizationManager D F)
    (self : ArrowMarker) (old_message : Option (Marker D F)) (new_message : Marker D F)
    (h : 2 ≤ new_message.points.length) (t_p1 : Point D) (e : String)
    (h1 : vm.transformPoint vm.getFixedFrame (offsetPoint A new_message 0) = Except.ok t_p1)
    (h2 : vm.transformPoint vm.getFixedFrame (offsetPoint A new_message 1) = Except.error e) :
    onNewMessage A O vm self old_message new_message =
      ({ (afterCreation vm self new_message).1 with arrow_ := false },
        (afterCreation vm self new_message).2 ++
        [Event.transformPoint vm.getFixedFrame (offsetPoint A new_message 0),
         Event.transformPoint vm.getFixedFrame (offsetPoint A new_message 1),
         Event.rosDebug (transformErrorText vm new_message e), Event.deleteArrow]) := by
  have hg : ¬ new_message.points.length < 2 := by omega
  have hne : new_message.points ≠ [] := by
    intro h0
    simp [h0] at h
  simp only [offsetPoint, List.getD_eq_getElem?_getD] at h1 h2
  cases ha : self.arrow_ <;>
    simp [onNewMessage, hg, hne, h1, h2, ha, afterCreation, offsetPoint]

/-- The two-point branch when both transforms succeed. -/
theorem onNewMessage_resolved (A : Arith D F) (O : OgreLibrary F)
    (vm : VisualizationManager D F)
    (self : ArrowMarker) (old_message : Option (Marker D F)) (new_message : Marker D F)
    (h : 2 ≤ new_message.points.length) (t_p1 t_p2 : Point D)
    (h1 : vm.transformPoint vm.getFixedFrame (offsetPoint A new_message 0) = Except.ok t_p1)
    (h2 : vm.transformPoint vm.getFixedFrame (offsetPoint A new_message 1) = Except.ok t_p2) :
    onNewMessage A O vm self old_message new_message =
      ((afterCreation vm self new_message).1,
        (afterCreation vm self new_message).2 ++
        [Event.transformPoint vm.getFixedFrame (offsetPoint A new_message 0),
         Event.transformPoint vm.getFixedFrame (offsetPoint A new_message 1),
         Event.setPosition ⟨A.toFloat t_p1.x, A.toFloat t_p1.y, A.toFloat t_p1.z⟩,
         Event.setOrientation (O.getRotationTo O.NEGATIVE_UNIT_Z
           (O.normalise (O.sub ⟨A.toFloat t_p2.x, A.toFloat t_p2.y, A.toFloat t_p2.z⟩
             ⟨A.toFloat t_p1.x, A.toFloat t_p1.y, A.toFloat t_p1.z⟩))),
         Event.setScale ⟨A.one, A.one, A.one⟩,
         Event.set
           (A.sub
             (O.length (O.sub ⟨A.toFloat t_p2.x, A.toFloat t_p2.y, A.toFloat t_p2.z⟩
               ⟨A.toFloat t_p1.x, A.toFloat t_p1.y, A.toFloat t_p1.z⟩))
             (if !A.eqZero new_message.scale.z then A.toFloat new_message.scale.z
              else A.tenth
                (O.length (O.sub ⟨A.toFloat t_p2.x, A.toFloat t_p2.y, A.toFloat t_p2.z⟩
                  ⟨A.toFloat t_p1.x, A.toFloat t_p1.y, A.toFloat t_p1.z⟩))))
           (A.toFloat new_message.scale.x)
           (if !A.eqZero new_message.scale.z then A.toFloat new_message.scale.z
            else A.tenth
              (O.length (O.sub ⟨A.toFloat t_p2.x, A.toFloat t_p2.y, A.toFloat t_p2.z⟩
                ⟨A.toFloat t_p1.x, A.toFloat t_p1.y, A.toFloat t_p1.z⟩)))
           (A.toFloat new_message.scale.y),
         Event.setColor new_message.color.r new_message.color.g new_message.color.b
           new_message.color.a]) := by
  have hg : ¬ new_message.points.length < 2 := by omega
  have hne : new_message.points ≠ [] := by
    intro h0
    simp [h0] at h
  simp only [offsetPoint, List.getD_eq_getElem?_getD] at h1 h2
  cases ha : self.arrow_ <;>
    simp [onNewMessage, hg, hne, h1, h2, ha, afterCreation, offsetPoint]

end Branches

/-! ## Lemmas on every arithmetic -/

section General

variable {D F : Type} [Inhabited (Point D)]

/-- One call registers with the selection manager exactly when it creates the primitive,
and then once, with the identity of the new message. -/
theorem registrations_onNewMessage (A : Arith D F) (O : OgreLibrary F)
    (vm : VisualizationManager D F)
    (self : ArrowMarker) (old_message : Option (Marker D F)) (new_message : Marker D F) :
    registrations (onNewMessage A O vm self old_message new_message).2 =
        (if self.arrow_ = false ∧ new_message.points.length ≠ 1 then
          [⟨new_message.ns, new_message.id⟩] else []) ∧
    (Event.newArrow ∈ (onNewMessage A O vm self old_message new_message).2 ↔
      (self.arrow_ = false ∧ new_message.points.length ≠ 1)) := by
  rcases hpts : new_message.points with _ | ⟨p0, _ | ⟨p1, rest⟩⟩
  · rw [onNewMessage_nil A O vm self old_message new_message hpts]
    cases ha : self.arrow_ <;> cases ho : self.owner_ <;>
      cases hz : A.eqZero (A.mul (A.mul new_message.scale.x new_message.scale.y)
        new_message.scale.z) <;>
      simp [afterCreation, scaleWarning, ha, ho, hz, registrations]
  · rw [onNewMessage_one A O vm self old_message new_message p0 hpts]
    cases ha : self.arrow_ <;> cases ho : self.owner_ <;> simp [registrations]
  · have h : 2 ≤ new_message.points.length := by simp [hpts]
    cases h1 : vm.transformPoint vm.getFixedFrame (offsetPoint A new_message 0) with
    | error e =>
      rw [onNewMessage_fail_first A O vm self old_message new_message h e h1]
      cases ha : self.arrow_ <;> simp [afterCreation, ha, registrations]
    | ok t_p1 =>
      cases h2 : vm.transformPoint vm.getFixedFrame (offsetPoint A new_message 1) with
      | error e =>
        rw [onNewMessage_fail_second A O vm self old_message new_message h t_p1 e h1 h2]
        cases ha : self.arrow_ <;> simp [afterCreation, ha, registrations]
      | ok t_p2 =>
        rw [onNewMessage_resolved A O vm self old_message new_message h t_p1 t_p2 h1 h2]
        cases ha : self.arrow_ <;> simp [afterCreation, ha, registrations]

/-- After one call `arrow_` is non-null exactly when a primitive exists: the last `new` or
`delete` of the call decides, and without either the pointer is as at entry. -/
theorem primitiveExists_onNewMessage (A : Arith D F) (O : OgreLibrary F)
    (vm : VisualizationManager D F)
    (self : ArrowMarker) (old_message : Option (Marker D F)) (new_message : Marker D F) :
    (onNewMessage A O vm self old_message new_message).1.arrow_ =
      primitiveExists self.arrow_ (onNewMessage A O vm self old_message new_message).2 := by
  rcases hpts : new_message.points with _ | ⟨p0, _ | ⟨p1, rest⟩⟩
  · rw [onNewMessage_nil A O vm self old_message new_message hpts]
    cases ha : self.arrow_ <;> cases ho : self.owner_ <;>
      cases hz : A.eqZero (A.mul (A.mul new_message.scale.x new_message.scale.y)
        new_message.scale.z) <;>
      simp [afterCreation, scaleWarning, ha, ho, hz, primitiveExists]
  · rw [onNewMessage_one A O vm self old_message new_message p0 hpts]
    cases ha : self.arrow_ <;> cases ho : self.owner_ <;> simp [primitiveExists]
  · have h : 2 ≤ new_message.points.length := by simp [hpts]
    cases h1 : vm.transformPoint vm.getFixedFrame (offsetPoint A new_message 0) with
    | error e =>
      rw [onNewMessage_fail_first A O vm self old_message new_message h e h1]
      cases ha : self.arrow_ <;> simp [afterCreation, ha, primitiveExists]
    | ok t_p1 =>
      cases h2 : vm.transformPoint vm.getFixedFrame (offsetPoint A new_message 1) with
      | error e =>
        rw [onNewMessage_fail_second A O vm self old_message new_message h t_p1 e h1 h2]
        cases ha : self.arrow_ <;> simp [afterCreation, ha, primitiveExists]
      | ok t_p2 =>
        rw [onNewMessage_resolved A O vm self old_message new_message h t_p1 t_p2 h1 h2]
        cases ha : self.arrow_ <;> simp [afterCreation, ha, primitiveExists]

/-- What the pose-based branch applies, whatever the scale and the owner. -/
theorem pose_mode_applied (A : Arith D F) (O : OgreLibrary F)
    (vm : VisualizationManager D F)
    (self : ArrowMarker) (old_message : Option (Marker D F)) (new_message : Marker D F)
    (hp : new_message.points = []) :
    (onNewMessage A O vm self old_message new_message).1.arrow_ = true ∧
    appliedPosition (onNewMessage A O vm self old_message new_message).2 =
      some (vm.transform new_message).1 ∧
    appliedOrientation (onNewMessage A O vm self old_message new_message).2 =
      some (O.mul (vm.transform new_message).2.1
        (O.FromAngleAxis (A.neg O.HALF_PI) O.UNIT_Y)) ∧
    appliedScale (onNewMessage A O vm self old_message new_message).2 =
      some (vm.transform new_message).2.2 := by
  rw [onNewMessage_nil A O vm self old_message new_message hp]
  cases ha : self.arrow_ <;> cases ho : self.owner_ <;>
    cases hz : A.eqZero (A.mul (A.mul new_message.scale.x new_message.scale.y)
      new_message.scale.z) <;>
    simp [afterCreation, scaleWarning, ha, ho, hz, appliedPosition, appliedOrientation,
      appliedScale]

end General

/-! ## Lemmas on exact arithmetic -/

section Exact

variable {K : Type} [LinearOrderedField K]

/-- The fixture's transform service is the identity on a message in the frame "/base". -/
theorem fixtureManager_ok (A : Arith K K) (target : String) (scale : Vector3 K)
    (points : List (Point K)) (i : Nat) :
    (fixtureManager : VisualizationManager K K).transformPoint target
      (offsetPoint A (fixtureMessage "/base" scale points) i) =
      Except.ok (offsetPoint A (fixtureMessage "/base" scale points) i).data := by
  have hne : ("/base" : String) ≠ "/lost" := by decide
  simp only [fixtureManager, offsetPoint, fixtureMessage, if_neg hne]

/-- In exact arithmetic the test of line 91 succeeds exactly when a component is zero. -/
theorem exact_scale_test (x y z : K) :
    (Arith.exact : Arith K K).eqZero
      ((Arith.exact : Arith K K).mul ((Arith.exact : Arith K K).mul x y) z) = true ↔
      (x = 0 ∨ y = 0 ∨ z = 0) := by
  simp [Arith.exact, or_assoc]

/-- The dimensions set in the two-point branch when both transforms succeed. -/
theorem two_point_dimensions (m : OgreMath K) (vm : VisualizationManager K K)
    (self : ArrowMarker) (old_message : Option (Marker K K)) (new_message : Marker K K)
    (h : 2 ≤ new_message.points.length) (t_p1 t_p2 : Point K)
    (h1 : vm.transformPoint vm.getFixedFrame (offsetPoint Arith.exact new_message 0) =
      Except.ok t_p1)
    (h2 : vm.transformPoint vm.getFixedFrame (offsetPoint Arith.exact new_message 1) =
      Except.ok t_p2) :
    appliedDimensions
        (onNewMessage Arith.exact (OgreLibrary.exact m) vm self old_message new_message).2 =
      some (euclideanDistance m t_p1 t_p2 -
          (if new_message.scale.z ≠ 0 then new_message.scale.z
            else (1 / 10) * euclideanDistance m t_p1 t_p2),
        new_message.scale.x,
        (if new_message.scale.z ≠ 0 then new_message.scale.z
          else (1 / 10) * euclideanDistance m t_p1 t_p2),
        new_message.scale.y) := by
  rw [onNewMessage_resolved Arith.exact (OgreLibrary.exact m) vm self old_message new_message
    h t_p1 t_p2 h1 h2]
  cases ha : self.arrow_ <;> by_cases hz : new_message.scale.z = 0 <;>
    simp [afterCreation, ha, hz, appliedDimensions, euclideanDistance, Vector3.length,
      Vector3.sub, Vector3.squaredLength, Arith.exact, OgreLibrary.exact]

/-- The extra rotation of the pose-based branch: the quaternion of the rotation by minus a
quarter turn about the Y axis. -/
theorem orient_x_eq (m : OgreMath K) :
    (OgreLibrary.exact m).FromAngleAxis
        ((Arith.exact : Arith K K).neg (OgreLibrary.exact m).HALF_PI)
        (OgreLibrary.exact m).UNIT_Y =
      ⟨m.Cos (-(m.PI / 4)), 0, m.Sin (-(m.PI / 4)), 0⟩ := by
  have e : (1 / 2 : K) * -((1 / 2) * m.PI) = -(m.PI / 4) := by ring
  simp only [OgreLibrary.exact, Arith.exact, Quaternion.FromAngleAxis, OgreMath.HALF_PI,
    Vector3.UNIT_Y, e, mul_zero, mul_one]

/-- The identity quaternion is a left unit of the product. -/
theorem Quaternion.IDENTITY_mul (q : Quaternion K) : Quaternion.IDENTITY.mul q = q := by
  simp [Quaternion.IDENTITY, Quaternion.mul]

/-- An exact square root sends one to one. -/
theorem OgreMath.Exact.Sqrt_one {m : OgreMath K} (hm : m.Exact) : m.Sqrt 1 = 1 := by
  have h := hm.Sqrt_mul_self 1 zero_le_one
  have hn := hm.Sqrt_nonneg 1
  have h2 : (m.Sqrt 1 - 1) * (m.Sqrt 1 + 1) = 0 := by
    have : (m.Sqrt 1 - 1) * (m.Sqrt 1 + 1) = m.Sqrt 1 * m.Sqrt 1 - 1 := by ring
    rw [this, h, sub_self]
  rcases mul_eq_zero.mp h2 with h3 | h3
  · linarith
  · linarith

/-- An exact square root sends the square of a non-negative number to that number. -/
theorem OgreMath.Exact.Sqrt_of_mul_self {m : OgreMath K} (hm : m.Exact) (a : K)
    (ha : 0 ≤ a) : m.Sqrt (a * a) = a := by
  have h := hm.Sqrt_mul_self (a * a) (mul_self_nonneg a)
  have hn := hm.Sqrt_nonneg (a * a)
  have h2 : (m.Sqrt (a * a) - a) * (m.Sqrt (a * a) + a) = 0 := by
    have : (m.Sqrt (a * a) - a) * (m.Sqrt (a * a) + a) =
        m.Sqrt (a * a) * m.Sqrt (a * a) - a * a := by ring
    rw [this, h, sub_self]
  rcases mul_eq_zero.mp h2 with h3 | h3
  · linarith
  · have h4 : m.Sqrt (a * a) = 0 := by linarith
    have h5 : a = 0 := by linarith
    rw [h4, h5]

/-- Normalising a unit vector changes nothing. -/
theorem Vector3.normalise_of_unit {m : OgreMath K} (hm : m.Exact) (b : Vector3 K)
    (hb : b.squaredLength = 1) : b.normalise m = b := by
  simp [Vector3.normalise, Vector3.length, hb, hm.Sqrt_one]

/-- Normalising a unit quaternion changes nothing. -/
theorem Quaternion.normalise_unit_quaternion {m : OgreMath K} (hm : m.Exact) (q : Quaternion K)
    (hq : q.normSq = 1) : q.normalise m = q := by
  simp [Quaternion.normalise, hq, hm.Sqrt_one]

/-- A unit vector whose third component has absolute value at least one lies on the axis. -/
theorem unit_on_axis (bx bY bz : K) (hb : bx * bx + bY * bY + bz * bz = 1)
    (hz : 1 ≤ bz * bz) : bx = 0 ∧ bY = 0 ∧ bz * bz = 1 := by
  have hx := mul_self_nonneg bx
  have hy := mul_self_nonneg bY
  have hx0 : bx * bx = 0 := le_antisymm (by linarith) hx
  have hy0 : bY * bY = 0 := le_antisymm (by linarith) hy
  exact ⟨mul_self_eq_zero.mp hx0, mul_self_eq_zero.mp hy0, by linarith⟩

/-- The rotation from the canonical axis `(0,0,-1)` to a unit vector `b` is a unit
quaternion, takes the axis onto `b`, and is the identity when `b` is the axis. -/
theorem Vector3.getRotationTo_negZ {m : OgreMath K} (hm : m.Exact) (b : Vector3 K)
    (hb : b.squaredLength = 1) :
    (Vector3.NEGATIVE_UNIT_Z.getRotationTo m b).normSq = 1 ∧
    (Vector3.NEGATIVE_UNIT_Z.getRotationTo m b).rotate Vector3.NEGATIVE_UNIT_Z = b ∧
    (b = Vector3.NEGATIVE_UNIT_Z →
      Vector3.NEGATIVE_UNIT_Z.getRotationTo m b = Quaternion.IDENTITY) := by
  obtain ⟨bx, bY, bz⟩ := b
  have hb1 : bx * bx + bY * bY + bz * bz = 1 := hb
  have hz : (Vector3.NEGATIVE_UNIT_Z : Vector3 K).squaredLength = 1 := by
    simp [Vector3.NEGATIVE_UNIT_Z, Vector3.squaredLength]
  have hy : (⟨0, 1, 0⟩ : Vector3 K).squaredLength = 1 := by
    simp [Vector3.squaredLength]
  unfold Vector3.getRotationTo
  simp only [Vector3.normalise_of_unit hm _ hz, Vector3.normalise_of_unit hm _ hb]
  have hd : (Vector3.NEGATIVE_UNIT_Z : Vector3 K).dotProduct ⟨bx, bY, bz⟩ = -bz := by
    simp [Vector3.NEGATIVE_UNIT_Z, Vector3.dotProduct]
  simp only [hd]
  by_cases c1 : 1 ≤ -bz
  · obtain ⟨hbx, hbY, hbz2⟩ := unit_on_axis bx bY bz hb1 (by nlinarith)
    have hbz : bz = -1 := by
      rcases mul_self_eq_one_iff.mp hbz2 with h | h
      · linarith
      · exact h
    subst hbz hbx hbY
    simp [Quaternion.IDENTITY, Quaternion.normSq, Quaternion.rotate, Quaternion.mul,
      Quaternion.conj, Quaternion.ofVector, Vector3.NEGATIVE_UNIT_Z]
  · rw [if_neg c1]
    by_cases c2 : -bz ≤ -1
    · obtain ⟨hbx, hbY, hbz2⟩ := unit_on_axis bx bY bz hb1 (by nlinarith)
      have hbz : bz = 1 := by
        rcases mul_self_eq_one_iff.mp hbz2 with h | h
        · exact h
        · linarith
      subst hbz hbx hbY
      have hax : (Vector3.UNIT_X : Vector3 K).crossProduct Vector3.NEGATIVE_UNIT_Z =
          ⟨0, 1, 0⟩ := by
        simp [Vector3.UNIT_X, Vector3.NEGATIVE_UNIT_Z, Vector3.crossProduct]
      rw [if_pos c2]
      simp only [hax, hy, one_ne_zero, if_false, Vector3.normalise_of_unit hm _ hy,
        Quaternion.FromAngleAxis, hm.Cos_half_PI, hm.Sin_half_PI]
      have h11 : (1 : K) ≠ -1 := by norm_num
      simp [Quaternion.IDENTITY, Quaternion.normSq, Quaternion.rotate, Quaternion.mul,
        Quaternion.conj, Quaternion.ofVector, Vector3.NEGATIVE_UNIT_Z, h11]
    · rw [if_neg c2]
      have hs2 := hm.Sqrt_mul_self ((1 + -bz) * 2) (by linarith)
      have hs0 := hm.Sqrt_nonneg ((1 + -bz) * 2)
      generalize m.Sqrt ((1 + -bz) * 2) = s at hs2 hs0
      have hspos : 0 < s := by
        rcases hs0.lt_or_eq with h | h
        · exact h
        · rw [← h] at hs2
          linarith
      have hsne : s ≠ 0 := ne_of_gt hspos
      have hunit : (⟨s * (1 / 2),
          ((Vector3.NEGATIVE_UNIT_Z : Vector3 K).crossProduct ⟨bx, bY, bz⟩).x * (1 / s),
          ((Vector3.NEGATIVE_UNIT_Z : Vector3 K).crossProduct ⟨bx, bY, bz⟩).y * (1 / s),
          ((Vector3.NEGATIVE_UNIT_Z : Vector3 K).crossProduct ⟨bx, bY, bz⟩).z * (1 / s)⟩ :
            Quaternion K).normSq = 1 := by
        simp only [Vector3.NEGATIVE_UNIT_Z, Vector3.crossProduct, Quaternion.normSq]
        field_simp
        linear_combination (s * s * (s * s + 2 * (1 - bz) - 4)) * hs2 + (4 * (s * s)) * hb1
      rw [Quaternion.normalise_unit_quaternion hm _ hunit]
      refine ⟨hunit, ?_, ?_⟩
      · simp only [Vector3.NEGATIVE_UNIT_Z, Vector3.crossProduct, Quaternion.rotate,
          Quaternion.mul, Quaternion.conj, Quaternion.ofVector, Vector3.mk.injEq]
        refine ⟨?_, ?_, ?_⟩
        · field_simp
          ring
        · field_simp
          ring
        · field_simp
          linear_combination (s * s * (-(2 + s * s + 2 * bz))) * hs2 + (4 * (s * s)) * hb1
      · intro hbn
        simp only [Vector3.NEGATIVE_UNIT_Z, Vector3.mk.injEq] at hbn
        exfalso
        apply c1
        rw [hbn.2.2]
        simp

/-- The rotation from the canonical axis to the zero vector, which is what two points that
coincide give as direction, is the identity. -/
theorem Vector3.getRotationTo_zero {m : OgreMath K} (hm : m.Exact) :
    Vector3.NEGATIVE_UNIT_Z.getRotationTo m (⟨0, 0, 0⟩ : Vector3 K) =
      Quaternion.IDENTITY := by
  have hz : (Vector3.NEGATIVE_UNIT_Z : Vector3 K).squaredLength = 1 := by
    simp [Vector3.NEGATIVE_UNIT_Z, Vector3.squaredLength]
  have h0 : m.Sqrt 0 = 0 := by
    have := hm.Sqrt_of_mul_self 0 le_rfl
    simpa using this
  have hn0 : (⟨0, 0, 0⟩ : Vector3 K).normalise m = ⟨0, 0, 0⟩ := by
    simp [Vector3.normalise, Vector3.length, Vector3.squaredLength, h0]
  unfold Vector3.getRotationTo
  simp only [Vector3.normalise_of_unit hm _ hz, hn0]
  have hd : (Vector3.NEGATIVE_UNIT_Z : Vector3 K).dotProduct ⟨0, 0, 0⟩ = 0 := by
    simp [Vector3.dotProduct]
  have c1 : ¬ (1 : K) ≤ 0 := by norm_num
  have c2 : ¬ (0 : K) ≤ -1 := by norm_num
  simp only [hd, if_neg c1, if_neg c2]
  have hs2 := hm.Sqrt_mul_self ((1 + 0) * 2) (by norm_num)
  have hs0 := hm.Sqrt_nonneg ((1 + (0 : K)) * 2)
  generalize m.Sqrt ((1 + 0) * 2) = s at hs2 hs0
  have hspos : 0 < s := by
    rcases hs0.lt_or_eq with h | h
    · exact h
    · rw [← h] at hs2
      norm_num at hs2
  have hroot : m.Sqrt ((s * (1 / 2)) * (s * (1 / 2))) = s * (1 / 2) :=
    hm.Sqrt_of_mul_self _ (by positivity)
  simp only [Vector3.NEGATIVE_UNIT_Z, Vector3.crossProduct, Quaternion.normalise,
    Quaternion.normSq, Quaternion.IDENTITY, mul_zero, zero_mul, sub_self, add_zero, hroot]
  have hne : s * (1 / 2) ≠ 0 := by positivity
  simp only [Quaternion.mk.injEq, and_true]
  field_simp

/-- The direction of the two-point branch: for distinct points the distance is positive and
the normalised difference is the unit vector from the first to the second. -/
theorem normalise_direction {m : OgreMath K} (hm : m.Exact) (t_p1 t_p2 : Point K)
    (hne : t_p1 ≠ t_p2) :
    0 < euclideanDistance m t_p1 t_p2 ∧
    euclideanDistance m t_p1 t_p2 * euclideanDistance m t_p1 t_p2 =
      (t_p2.x - t_p1.x) * (t_p2.x - t_p1.x) + (t_p2.y - t_p1.y) * (t_p2.y - t_p1.y) +
        (t_p2.z - t_p1.z) * (t_p2.z - t_p1.z) ∧
    (Vector3.sub ⟨t_p2.x, t_p2.y, t_p2.z⟩ ⟨t_p1.x, t_p1.y, t_p1.z⟩).normalise m =
      unitVector m t_p1 t_p2 ∧
    (unitVector m t_p1 t_p2).squaredLength = 1 := by
  obtain ⟨x1, y1, z1⟩ := t_p1
  obtain ⟨x2, y2, z2⟩ := t_p2
  have hx := mul_self_nonneg (x2 - x1)
  have hy := mul_self_nonneg (y2 - y1)
  have hz := mul_self_nonneg (z2 - z1)
  have hsq := hm.Sqrt_mul_self
    ((x2 - x1) * (x2 - x1) + (y2 - y1) * (y2 - y1) + (z2 - z1) * (z2 - z1)) (by linarith)
  have hd0 := hm.Sqrt_nonneg
    ((x2 - x1) * (x2 - x1) + (y2 - y1) * (y2 - y1) + (z2 - z1) * (z2 - z1))
  have hpos : 0 < (x2 - x1) * (x2 - x1) + (y2 - y1) * (y2 - y1) + (z2 - z1) * (z2 - z1) := by
    rcases (add_nonneg (add_nonneg hx hy) hz).lt_or_eq with h | h
    · exact h
    · exfalso
      apply hne
      have hx0 : (x2 - x1) * (x2 - x1) = 0 := le_antisymm (by linarith) hx
      have hy0 : (y2 - y1) * (y2 - y1) = 0 := le_antisymm (by linarith) hy
      have hz0 : (z2 - z1) * (z2 - z1) = 0 := le_antisymm (by linarith) hz
      have ex := sub_eq_zero.mp (mul_self_eq_zero.mp hx0)
      have ey := sub_eq_zero.mp (mul_self_eq_zero.mp hy0)
      have ez := sub_eq_zero.mp (mul_self_eq_zero.mp hz0)
      rw [ex, ey, ez]
  simp only [euclideanDistance, unitVector, Vector3.normalise, Vector3.length, Vector3.sub,
    Vector3.squaredLength]
  generalize m.Sqrt ((x2 - x1) * (x2 - x1) + (y2 - y1) * (y2 - y1) + (z2 - z1) * (z2 - z1)) = d
    at hsq hd0
  have hdpos : 0 < d := by
    rcases hd0.lt_or_eq with h | h
    · exact h
    · rw [← h] at hsq
      linarith
  have hdne : d ≠ 0 := ne_of_gt hdpos
  refine ⟨hdpos, hsq, ?_, ?_⟩
  · rw [if_pos hdpos]
    simp only [mul_one_div]
  · field_simp
    linarith

end Exact

/-! ## Lemmas on the narrowing -/

section NarrowingLemmas

variable {K : Type} [LinearOrderedField K] [FloorRing K]

/-- The binade of the numbers from 512 up to 1024. -/
theorem log_two_eq_nine (x : K) (h1 : 512 ≤ x) (h2 : x < 1024) : Int.log 2 |x| = 9 := by
  have hx : 0 < x := by linarith
  rw [abs_of_pos hx]
  have ha : (9 : ℤ) ≤ Int.log 2 x := by
    rw [← Int.zpow_le_iff_le_log (by norm_num) hx]
    norm_num
    exact h1
  have hb : Int.log 2 x < 10 := by
    rw [← Int.lt_zpow_iff_log_lt (by norm_num) hx]
    norm_num
    exact h2
  omega

/-- A number less than half a unit above an integer rounds to that integer. -/
theorem roundHalfEven_of_lt (n : ℤ) (x : K) (h1 : (n : K) ≤ x) (h2 : x < n + 1 / 2) :
    roundHalfEven x = n := by
  have hf : ⌊x⌋ = n := by
    rw [Int.floor_eq_iff]
    exact ⟨h1, by linarith⟩
  have hlt : x - (n : K) < 1 / 2 := by linarith
  unfold roundHalfEven
  rw [hf, if_pos hlt]

/-- The number 1000 is a binary32 value. -/
theorem toBinary32_1000 : toBinary32 (1000 : K) = 1000 := by
  have hne : (1000 : K) ≠ 0 := by norm_num
  have hl := log_two_eq_nine (1000 : K) (by norm_num) (by norm_num)
  have hp : (2 : K) ^ ((9 : ℤ) - 23) = 1 / 16384 := by norm_num [zpow_neg]
  have hr : roundHalfEven ((1000 : K) / (1 / 16384)) = 16384000 :=
    roundHalfEven_of_lt 16384000 _ (by norm_num) (by norm_num)
  simp only [toBinary32, if_neg hne, hl]
  rw [show max (9 : ℤ) (-126) = 9 by norm_num, hp, hr]
  norm_num

/-- The number `1000 + 2^-17`, a binary64 value, rounds to 1000 in binary32: the spacing
of binary32 at 1000 is `2^-14`. -/
theorem toBinary32_near_1000 : toBinary32 ((1000 : K) + 1 / 131072) = 1000 := by
  have hne : (1000 : K) + 1 / 131072 ≠ 0 := by norm_num
  have hl := log_two_eq_nine ((1000 : K) + 1 / 131072) (by norm_num) (by norm_num)
  have hp : (2 : K) ^ ((9 : ℤ) - 23) = 1 / 16384 := by norm_num [zpow_neg]
  have hr : roundHalfEven (((1000 : K) + 1 / 131072) / (1 / 16384)) = 16384000 :=
    roundHalfEven_of_lt 16384000 _ (by norm_num) (by norm_num)
  simp only [toBinary32, if_neg hne, hl]
  rw [show max (9 : ℤ) (-126) = 9 by norm_num, hp, hr]
  norm_num

/-- Zero is a binary32 value. -/
theorem toBinary32_zero : toBinary32 (0 : K) = 0 := by
  simp [toBinary32]

end NarrowingLemmas

/-! ## Theorems -/

section Theorems

/-- C1, as stated, fails on a marker without owner: with `owner_` null and a message of
exactly one point, no status at all is reported (the text only reaches `ROS_DEBUG`). -/
theorem single_point_no_owner_no_status :
    ¬ ∃ id text, Event.setMarkerStatus id StatusLevel.Error text ∈
      (onNewMessage Arith.exact
        (OgreLibrary.exact (⟨Real.sqrt, Real.sin, Real.cos, Real.pi⟩ : OgreMath ℝ))
        fixtureManager (fixtureMarker false true) none
        (fixtureMessage "/base" ⟨1, 1, 1⟩ [⟨0, 0, 0⟩])).2 := by
  simp [onNewMessage, fixtureMessage, fixtureMarker]

/-- C1 (amended): for every message with exactly one point, whatever the other fields, the
marker and the arithmetic are: when the marker has an owner, an Error status for `getID()`
is reported whose text contains "only specified one point of a point to point arrow"; in
every case `arrow_` is null afterwards and no position, orientation, scale, dimensions or
colour is set. -/
theorem single_point_rejection {D F : Type} [Inhabited (Point D)] (A : Arith D F)
    (O : OgreLibrary F) (vm : VisualizationManager D F)
    (self : ArrowMarker) (old_message : Option (Marker D F)) (new_message : Marker D F)
    (h : new_message.points.length = 1) :
    (self.owner_ = true → ∃ pre post : String,
      Event.setMarkerStatus self.getID StatusLevel.Error
        (pre ++ "only specified one point of a point to point arrow" ++ post) ∈
        (onNewMessage A O vm self old_message new_message).2) ∧
    (onNewMessage A O vm self old_message new_message).1.arrow_ = false ∧
    ∀ e ∈ (onNewMessage A O vm self old_message new_message).2, e.appliesState = false := by
  obtain ⟨p, hp⟩ := List.length_eq_one.mp h
  refine ⟨fun ho => ⟨"Arrow marker [" ++ self.getStringID ++ "] ", ".", ?_⟩, ?_, ?_⟩
  · have hs : "Arrow marker [" ++ self.getStringID ++ "] " ++
        "only specified one point of a point to point arrow" ++ "." =
        "Arrow marker [" ++ self.getStringID ++
          "] only specified one point of a point to point arrow." := by
      rw [String.append_assoc, String.append_assoc, String.append_assoc]
      rfl
    rw [hs]
    simp [onNewMessage, hp, ho]
  · simp [onNewMessage, hp]
  · intro e he
    cases ho : self.owner_ <;> cases ha : self.arrow_ <;>
      simp [onNewMessage, hp, ho, ha] at he <;>
      (try rcases he with he | he) <;> (try rcases he with he | he) <;>
      subst_vars <;> rfl

/-- Witness for C1 (amended): a marker with an owner and an arrow, a one-point message. -/
theorem single_point_rejection_witness :
    (∃ pre post : String,
      Event.setMarkerStatus ⟨"demo", 7⟩ StatusLevel.Error
        (pre ++ "only specified one point of a point to point arrow" ++ post) ∈
        (onNewMessage Arith.exact
          (OgreLibrary.exact (⟨Real.sqrt, Real.sin, Real.cos, Real.pi⟩ : OgreMath ℝ))
          fixtureManager (fixtureMarker true true) none
          (fixtureMessage "/base" ⟨1, 1, 1⟩ [⟨0, 0, 0⟩])).2) ∧
    (onNewMessage Arith.exact
      (OgreLibrary.exact (⟨Real.sqrt, Real.sin, Real.cos, Real.pi⟩ : OgreMath ℝ))
      fixtureManager (fixtureMarker true true) none
      (fixtureMessage "/base" ⟨1, 1, 1⟩ [⟨0, 0, 0⟩])).1.arrow_ = false :=
  have w := single_point_rejection Arith.exact
    (OgreLibrary.exact (⟨Real.sqrt, Real.sin, Real.cos, Real.pi⟩ : OgreMath ℝ))
    fixtureManager (fixtureMarker true true) none
    (fixtureMessage "/base" ⟨1, 1, 1⟩ [⟨0, 0, 0⟩]) rfl
  ⟨w.1 rfl, w.2.1⟩

/-- C2: for every message with at least two points, whatever the arithmetic, if the
transform of `points[0] + pose.position` or of `points[1] + pose.position` fails, then
`arrow_` is null afterwards and nothing was applied: no call set a position, orientation,
scale, dimensions or colour.  If the first transform fails, it is the only request made to
the transform service. -/
theorem transform_failure_degrades {D F : Type} [Inhabited (Point D)] (A : Arith D F)
    (O : OgreLibrary F) (vm : VisualizationManager D F)
    (self : ArrowMarker) (old_message : Option (Marker D F)) (new_message : Marker D F)
    (h : 2 ≤ new_message.points.length)
    (hfail : (∃ e, vm.transformPoint vm.getFixedFrame (offsetPoint A new_message 0) =
        Except.error e) ∨
      (∃ e, vm.transformPoint vm.getFixedFrame (offsetPoint A new_message 1) =
        Except.error e)) :
    (onNewMessage A O vm self old_message new_message).1.arrow_ = false ∧
    (∀ e ∈ (onNewMessage A O vm self old_message new_message).2, e.appliesState = false) ∧
    appliedPosition (onNewMessage A O vm self old_message new_message).2 = none ∧
    appliedOrientation (onNewMessage A O vm self old_message new_message).2 = none ∧
    appliedScale (onNewMessage A O vm self old_message new_message).2 = none ∧
    appliedDimensions (onNewMessage A O vm self old_message new_message).2 = none ∧
    colorsSet (onNewMessage A O vm self old_message new_message).2 = [] ∧
    ((∃ e, vm.transformPoint vm.getFixedFrame (offsetPoint A new_message 0) =
        Except.error e) →
      transformRequests (onNewMessage A O vm self old_message new_message).2 =
        [(vm.getFixedFrame, offsetPoint A new_message 0)]) := by
  cases h1 : vm.transformPoint vm.getFixedFrame (offsetPoint A new_message 0) with
  | error e1 =>
    rw [onNewMessage_fail_first A O vm self old_message new_message h e1 h1]
    cases ha : self.arrow_ <;>
      simp [afterCreation, ha, appliedPosition, appliedOrientation, appliedScale,
        appliedDimensions, colorsSet, transformRequests, Event.appliesState]
  | ok t1 =>
    cases h2 : vm.transformPoint vm.getFixedFrame (offsetPoint A new_message 1) with
    | error e2 =>
      rw [onNewMessage_fail_second A O vm self old_message new_message h t1 e2 h1 h2]
      cases ha : self.arrow_ <;>
        simp [afterCreation, ha, appliedPosition, appliedOrientation, appliedScale,
          appliedDimensions, colorsSet, transformRequests, Event.appliesState]
    | ok t2 =>
      simp [h1, h2] at hfail

/-- Witness for C2: a two-point message in the frame "/lost", which the fixture's
transform service does not know. -/
theorem transform_failure_degrades_witness :
    (onNewMessage Arith.exact
      (OgreLibrary.exact (⟨Real.sqrt, Real.sin, Real.cos, Real.pi⟩ : OgreMath ℝ))
      fixtureManager (fixtureMarker true true) none
      (fixtureMessage "/lost" ⟨1, 1, 1⟩ [⟨0, 0, 0⟩, ⟨10, 0, 0⟩])).1.arrow_ = false ∧
    transformRequests (onNewMessage Arith.exact
      (OgreLibrary.exact (⟨Real.sqrt, Real.sin, Real.cos, Real.pi⟩ : OgreMath ℝ))
      fixtureManager (fixtureMarker true true) none
      (fixtureMessage "/lost" ⟨1, 1, 1⟩ [⟨0, 0, 0⟩, ⟨10, 0, 0⟩])).2 =
        [("/map", offsetPoint Arith.exact
          (fixtureMessage "/lost" ⟨1, 1, 1⟩ [⟨0, 0, 0⟩, ⟨10, 0, 0⟩]) 0)] :=
  have w := transform_failure_degrades Arith.exact
    (OgreLibrary.exact (⟨Real.sqrt, Real.sin, Real.cos, Real.pi⟩ : OgreMath ℝ))
    fixtureManager (fixtureMarker true true) none
    (fixtureMessage "/lost" ⟨1, 1, 1⟩ [⟨0, 0, 0⟩, ⟨10, 0, 0⟩]) (by simp [fixtureMessage])
    (Or.inl ⟨"unknown frame", by simp [fixtureManager, offsetPoint, fixtureMessage]⟩)
  ⟨w.1, w.2.2.2.2.2.2.2 ⟨"unknown frame", by simp [fixtureManager, offsetPoint, fixtureMessage]⟩⟩

/-- C3: in exact arithmetic, for every message with at least two points whose two
transforms succeed, with `d` the distance between the transformed points, the arrow is set
with head length `scale.z` when `scale.z` is non-zero and `0.1 * d` when it is zero, shaft
length `d - head_length`, shaft radius `scale.x` and head radius `scale.y`. -/
theorem two_point_head_and_shaft {K : Type} [LinearOrderedField K] (m : OgreMath K)
    (vm : VisualizationManager K K)
    (self : ArrowMarker) (old_message : Option (Marker K K)) (new_message : Marker K K)
    (h : 2 ≤ new_message.points.length) (t_p1 t_p2 : Point K)
    (h1 : vm.transformPoint vm.getFixedFrame (offsetPoint Arith.exact new_message 0) =
      Except.ok t_p1)
    (h2 : vm.transformPoint vm.getFixedFrame (offsetPoint Arith.exact new_message 1) =
      Except.ok t_p2) :
    (new_message.scale.z ≠ 0 →
      appliedDimensions
          (onNewMessage Arith.exact (OgreLibrary.exact m) vm self old_message new_message).2 =
        some (euclideanDistance m t_p1 t_p2 - new_message.scale.z, new_message.scale.x,
          new_message.scale.z, new_message.scale.y)) ∧
    (new_message.scale.z = 0 →
      appliedDimensions
          (onNewMessage Arith.exact (OgreLibrary.exact m) vm self old_message new_message).2 =
        some (euclideanDistance m t_p1 t_p2 - (1 / 10) * euclideanDistance m t_p1 t_p2,
          new_message.scale.x, (1 / 10) * euclideanDistance m t_p1 t_p2,
          new_message.scale.y)) := by
  rw [onNewMessage_resolved Arith.exact (OgreLibrary.exact m) vm self old_message new_message
    h t_p1 t_p2 h1 h2]
  constructor
  · intro hz
    cases ha : self.arrow_ <;>
      simp [afterCreation, ha, appliedDimensions, hz, euclideanDistance, Vector3.length,
        Vector3.sub, Vector3.squaredLength, Arith.exact, OgreLibrary.exact]
  · intro hz
    cases ha : self.arrow_ <;>
      simp [afterCreation, ha, appliedDimensions, hz, euclideanDistance, Vector3.length,
        Vector3.sub, Vector3.squaredLength, Arith.exact, OgreLibrary.exact]

/-- Witness for C3, over the reals: transformed points `(0,0,0)` and `(10,0,0)` give head 1
and shaft 9 with `scale.z = 0`, and head 3 and shaft 7 with `scale.z = 3`. -/
theorem two_point_head_and_shaft_witness :
    appliedDimensions (onNewMessage Arith.exact
      (OgreLibrary.exact (⟨Real.sqrt, Real.sin, Real.cos, Real.pi⟩ : OgreMath ℝ))
      fixtureManager (fixtureMarker true false) none
      (fixtureMessage "/base" ⟨1 / 2, 1 / 3, 0⟩ [⟨-1, -2, -3⟩, ⟨9, -2, -3⟩])).2 =
        some (9, 1 / 2, 1, 1 / 3) ∧
    appliedDimensions (onNewMessage Arith.exact
      (OgreLibrary.exact (⟨Real.sqrt, Real.sin, Real.cos, Real.pi⟩ : OgreMath ℝ))
      fixtureManager (fixtureMarker true false) none
      (fixtureMessage "/base" ⟨1 / 2, 1 / 3, 3⟩ [⟨-1, -2, -3⟩, ⟨9, -2, -3⟩])).2 =
        some (7, 1 / 2, 3, 1 / 3) := by
  have hd : euclideanDistance (⟨Real.sqrt, Real.sin, Real.cos, Real.pi⟩ : OgreMath ℝ)
      ⟨0, 0, 0⟩ ⟨10, 0, 0⟩ = 10 := by
    have e : ((10 : ℝ) - 0) * (10 - 0) + (0 - 0) * (0 - 0) + (0 - 0) * (0 - 0) = 10 * 10 := by
      norm_num
    simp only [euclideanDistance, e]
    exact Real.sqrt_mul_self (by norm_num)
  have w0 := (two_point_head_and_shaft (⟨Real.sqrt, Real.sin, Real.cos, Real.pi⟩ : OgreMath ℝ)
    fixtureManager (fixtureMarker true false) none
    (fixtureMessage "/base" ⟨1 / 2, 1 / 3, 0⟩ [⟨-1, -2, -3⟩, ⟨9, -2, -3⟩])
    (by simp [fixtureMessage]) ⟨0, 0, 0⟩ ⟨10, 0, 0⟩
    (by rw [fixtureManager_ok]
        norm_num [offsetPoint, fixtureMessage, Point.add, Arith.exact])
    (by rw [fixtureManager_ok]
        norm_num [offsetPoint, fixtureMessage, Point.add, Arith.exact])).2 rfl
  have w3 := (two_point_head_and_shaft (⟨Real.sqrt, Real.sin, Real.cos, Real.pi⟩ : OgreMath ℝ)
    fixtureManager (fixtureMarker true false) none
    (fixtureMessage "/base" ⟨1 / 2, 1 / 3, 3⟩ [⟨-1, -2, -3⟩, ⟨9, -2, -3⟩])
    (by simp [fixtureMessage]) ⟨0, 0, 0⟩ ⟨10, 0, 0⟩
    (by rw [fixtureManager_ok]
        norm_num [offsetPoint, fixtureMessage, Point.add, Arith.exact])
    (by rw [fixtureManager_ok]
        norm_num [offsetPoint, fixtureMessage, Point.add, Arith.exact])).1
    (by norm_num [fixtureMessage])
  rw [hd] at w0 w3
  refine ⟨?_, ?_⟩
  · rw [w0]
    norm_num [fixtureMessage]
  · rw [w3]
    norm_num [fixtureMessage]

/-- C4: in exact arithmetic, for every message without points, the orientation applied to
the scene node is the orientation given by `MarkerBase::transform` multiplied on the right
by the quaternion `(cos(-pi/4), 0, sin(-pi/4), 0)` of the rotation by -90 degrees about Y.
With the helper as the spec describes it, that is `pose.orientation` times this quaternion;
it is this quaternion itself when `pose.orientation` is the identity; and it is the same
for every value of the scale. -/
theorem pose_mode_orientation {K : Type} [LinearOrderedField K] (m : OgreMath K)
    (vm : VisualizationManager K K)
    (self : ArrowMarker) (old_message : Option (Marker K K)) (new_message : Marker K K)
    (hp : new_message.points = []) :
    appliedOrientation
        (onNewMessage Arith.exact (OgreLibrary.exact m) vm self old_message new_message).2 =
      some ((vm.transform new_message).2.1.mul
        ⟨m.Cos (-(m.PI / 4)), 0, m.Sin (-(m.PI / 4)), 0⟩) ∧
    appliedOrientation (onNewMessage Arith.exact (OgreLibrary.exact m)
        { vm with transform := MarkerBase.transform Arith.exact } self
        old_message new_message).2 =
      some (new_message.pose.orientation.mul
        ⟨m.Cos (-(m.PI / 4)), 0, m.Sin (-(m.PI / 4)), 0⟩) ∧
    (new_message.pose.orientation = Quaternion.IDENTITY →
      appliedOrientation (onNewMessage Arith.exact (OgreLibrary.exact m)
          { vm with transform := MarkerBase.transform Arith.exact } self
          old_message new_message).2 =
        some ⟨m.Cos (-(m.PI / 4)), 0, m.Sin (-(m.PI / 4)), 0⟩) ∧
    ∀ scale : Vector3 K,
      appliedOrientation (onNewMessage Arith.exact (OgreLibrary.exact m)
          { vm with transform := MarkerBase.transform Arith.exact } self
          old_message { new_message with scale := scale }).2 =
        appliedOrientation (onNewMessage Arith.exact (OgreLibrary.exact m)
          { vm with transform := MarkerBase.transform Arith.exact } self
          old_message new_message).2 := by
  have hcode : ∀ (v : VisualizationManager K K) (msg : Marker K K), msg.points = [] →
      appliedOrientation
          (onNewMessage Arith.exact (OgreLibrary.exact m) v self old_message msg).2 =
        some ((v.transform msg).2.1.mul
          ⟨m.Cos (-(m.PI / 4)), 0, m.Sin (-(m.PI / 4)), 0⟩) := by
    intro v msg hmsg
    rw [(pose_mode_applied Arith.exact (OgreLibrary.exact m) v self old_message
      msg hmsg).2.2.1, orient_x_eq]
    rfl
  have hspec : ∀ msg : Marker K K, msg.points = [] →
      appliedOrientation (onNewMessage Arith.exact (OgreLibrary.exact m)
          { vm with transform := MarkerBase.transform Arith.exact } self
          old_message msg).2 =
        some (msg.pose.orientation.mul
          ⟨m.Cos (-(m.PI / 4)), 0, m.Sin (-(m.PI / 4)), 0⟩) := by
    intro msg hmsg
    rw [hcode _ msg hmsg]
    rfl
  refine ⟨hcode vm new_message hp, hspec new_message hp, fun hid => ?_, fun scale => ?_⟩
  · rw [hspec new_message hp, hid, Quaternion.IDENTITY_mul]
  · rw [hspec new_message hp, hspec { new_message with scale := scale } hp]

/-- Witness for C4, over the reals: identity orientation, no points; the orientation
applied is `(cos(-pi/4), 0, sin(-pi/4), 0)`. -/
theorem pose_mode_orientation_witness :
    appliedOrientation (onNewMessage Arith.exact
      (OgreLibrary.exact (⟨Real.sqrt, Real.sin, Real.cos, Real.pi⟩ : OgreMath ℝ))
      { (fixtureManager : VisualizationManager ℝ ℝ) with
        transform := MarkerBase.transform Arith.exact }
      (fixtureMarker true false) none (fixtureMessage "/base" ⟨1, 2, 3⟩ [])).2 =
        some ⟨Real.cos (-(Real.pi / 4)), 0, Real.sin (-(Real.pi / 4)), 0⟩ :=
  (pose_mode_orientation (⟨Real.sqrt, Real.sin, Real.cos, Real.pi⟩ : OgreMath ℝ)
    fixtureManager (fixtureMarker true false) none (fixtureMessage "/base" ⟨1, 2, 3⟩ [])
    rfl).2.2.1 rfl

/-- C5, as stated, fails on a marker without owner: with `owner_` null, no points and scale
`(0, 1, 1)`, no status is reported. -/
theorem zero_scale_no_owner_no_warning :
    ¬ ∃ id text, Event.setMarkerStatus id StatusLevel.Warn text ∈
      (onNewMessage Arith.exact
        (OgreLibrary.exact (⟨Real.sqrt, Real.sin, Real.cos, Real.pi⟩ : OgreMath ℝ))
        fixtureManager (fixtureMarker false false) none
        (fixtureMessage "/base" ⟨0, 1, 1⟩ [])).2 := by
  simp [onNewMessage, fixtureMessage, fixtureMarker]

/-- C5 (amended): for every message without points and whatever the arithmetic: when the
marker has an owner and the test of the code, `scale.x * scale.y * scale.z == 0.0f` as the
machine evaluates it, succeeds, the Warn status "Scale of 0 in one of x/y/z" is reported
for `getID()`; in every case the call resolves: `arrow_` is non-null afterwards and the
position, orientation, scale and colour applied are those of the pose-based branch, the
calls other than status reports being exactly those made when no warning is given (marker
without owner).  In exact arithmetic the test succeeds, and the warning is given to a
marker with an owner, whenever a scale component is zero. -/
theorem zero_scale_warning_nonfatal {D F : Type} [Inhabited (Point D)] (A : Arith D F)
    (O : OgreLibrary F) (vm : VisualizationManager D F)
    (self : ArrowMarker) (old_message : Option (Marker D F)) (new_message : Marker D F)
    (hp : new_message.points = []) :
    (self.owner_ = true →
      A.eqZero (A.mul (A.mul new_message.scale.x new_message.scale.y)
        new_message.scale.z) = true →
      Event.setMarkerStatus self.getID StatusLevel.Warn "Scale of 0 in one of x/y/z" ∈
        (onNewMessage A O vm self old_message new_message).2) ∧
    (onNewMessage A O vm self old_message new_message).1.arrow_ = true ∧
    appliedPosition (onNewMessage A O vm self old_message new_message).2 =
      some (vm.transform new_message).1 ∧
    appliedOrientation (onNewMessage A O vm self old_message new_message).2 =
      some (O.mul (vm.transform new_message).2.1
        (O.FromAngleAxis (A.neg O.HALF_PI) O.UNIT_Y)) ∧
    appliedScale (onNewMessage A O vm self old_message new_message).2 =
      some (vm.transform new_message).2.2 ∧
    colorsSet (onNewMessage A O vm self old_message new_message).2 =
      [⟨new_message.color.r, new_message.color.g, new_message.color.b,
        new_message.color.a⟩] ∧
    (onNewMessage A O vm self old_message new_message).2.filter (fun e => !e.isStatus) =
      (onNewMessage A O vm { self with owner_ := false } old_message new_message).2 ∧
    (∀ (K : Type) [LinearOrderedField K] (m : OgreMath K) (vmK : VisualizationManager K K)
      (old : Option (Marker K K)) (message : Marker K K),
      message.points = [] →
      (message.scale.x = 0 ∨ message.scale.y = 0 ∨ message.scale.z = 0) →
      self.owner_ = true →
      Event.setMarkerStatus self.getID StatusLevel.Warn "Scale of 0 in one of x/y/z" ∈
        (onNewMessage Arith.exact (OgreLibrary.exact m) vmK self old message).2) := by
  have hwarn : ∀ {D' F' : Type} [Inhabited (Point D')] (A' : Arith D' F')
      (O' : OgreLibrary F') (vm' : VisualizationManager D' F')
      (old' : Option (Marker D' F')) (msg' : Marker D' F'), msg'.points = [] →
      self.owner_ = true →
      A'.eqZero (A'.mul (A'.mul msg'.scale.x msg'.scale.y) msg'.scale.z) = true →
      Event.setMarkerStatus self.getID StatusLevel.Warn "Scale of 0 in one of x/y/z" ∈
        (onNewMessage A' O' vm' self old' msg').2 := by
    intro D' F' _ A' O' vm' old' msg' hp' ho hz
    rw [onNewMessage_nil A' O' vm' self old' msg' hp']
    simp [scaleWarning, ho, hz]
  obtain ⟨ha, hpos, hor, hsc⟩ := pose_mode_applied A O vm self old_message new_message hp
  refine ⟨hwarn A O vm old_message new_message hp, ha, hpos, hor, hsc, ?_, ?_, ?_⟩
  · rw [onNewMessage_nil A O vm self old_message new_message hp]
    cases ha : self.arrow_ <;> cases ho : self.owner_ <;>
      cases hz : A.eqZero (A.mul (A.mul new_message.scale.x new_message.scale.y)
        new_message.scale.z) <;>
      simp [afterCreation, scaleWarning, ha, ho, hz, colorsSet]
  · rw [onNewMessage_nil A O vm self old_message new_message hp,
      onNewMessage_nil A O vm { self with owner_ := false } old_message new_message hp]
    cases ha : self.arrow_ <;> cases ho : self.owner_ <;>
      cases hz : A.eqZero (A.mul (A.mul new_message.scale.x new_message.scale.y)
        new_message.scale.z) <;>
      simp [afterCreation, scaleWarning, ha, ho, hz, Event.isStatus]
  · intro K _ m vmK old message hpK hzero ho
    exact hwarn Arith.exact (OgreLibrary.exact m) vmK old message hpK ho
      ((exact_scale_test _ _ _).mpr hzero)

/-- Witness for C5 (amended): scale `(0, 1, 1)`, no points, a marker with an owner, exact
arithmetic: the test succeeds, the warning is given and the call resolves. -/
theorem zero_scale_warning_nonfatal_witness :
    Event.setMarkerStatus ⟨"demo", 7⟩ StatusLevel.Warn "Scale of 0 in one of x/y/z" ∈
      (onNewMessage Arith.exact
        (OgreLibrary.exact (⟨Real.sqrt, Real.sin, Real.cos, Real.pi⟩ : OgreMath ℝ))
        fixtureManager (fixtureMarker true false) none
        (fixtureMessage "/base" ⟨0, 1, 1⟩ [])).2 ∧
    (onNewMessage Arith.exact
      (OgreLibrary.exact (⟨Real.sqrt, Real.sin, Real.cos, Real.pi⟩ : OgreMath ℝ))
      fixtureManager (fixtureMarker true false) none
      (fixtureMessage "/base" ⟨0, 1, 1⟩ [])).1.arrow_ = true :=
  have w := zero_scale_warning_nonfatal Arith.exact
    (OgreLibrary.exact (⟨Real.sqrt, Real.sin, Real.cos, Real.pi⟩ : OgreMath ℝ))
    fixtureManager (fixtureMarker true false) none (fixtureMessage "/base" ⟨0, 1, 1⟩ []) rfl
  ⟨w.1 rfl ((exact_scale_test _ _ _).mpr (Or.inl rfl)), w.2.1⟩

/-- C6: for every message that resolves (no points, or at least two points with both
transforms succeeding), whatever the arithmetic, exactly one colour is set on the arrow
primitive and it is the message's colour, component for component; the scale, and so the
zero-scale warning, plays no part. -/
theorem color_passthrough {D F : Type} [Inhabited (Point D)] (A : Arith D F)
    (O : OgreLibrary F) (vm : VisualizationManager D F)
    (self : ArrowMarker) (old_message : Option (Marker D F)) (new_message : Marker D F)
    (h : new_message.points = [] ∨
      (2 ≤ new_message.points.length ∧ ∃ t_p1 t_p2,
        vm.transformPoint vm.getFixedFrame (offsetPoint A new_message 0) = Except.ok t_p1 ∧
        vm.transformPoint vm.getFixedFrame (offsetPoint A new_message 1) = Except.ok t_p2)) :
    colorsSet (onNewMessage A O vm self old_message new_message).2 =
      [⟨new_message.color.r, new_message.color.g, new_message.color.b,
        new_message.color.a⟩] := by
  rcases h with h0 | ⟨h2, t_p1, t_p2, ht1, ht2⟩
  · rw [onNewMessage_nil A O vm self old_message new_message h0]
    cases ha : self.arrow_ <;> cases ho : self.owner_ <;>
      cases hz : A.eqZero (A.mul (A.mul new_message.scale.x new_message.scale.y)
        new_message.scale.z) <;>
      simp [afterCreation, scaleWarning, ha, ho, hz, colorsSet]
  · rw [onNewMessage_resolved A O vm self old_message new_message h2 t_p1 t_p2 ht1 ht2]
    cases ha : self.arrow_ <;> simp [afterCreation, ha, colorsSet]

/-- Witness for C6: a pose-based message with a zero scale component, on a marker with an
owner (the warning path). -/
theorem color_passthrough_witness :
    colorsSet (onNewMessage Arith.exact
      (OgreLibrary.exact (⟨Real.sqrt, Real.sin, Real.cos, Real.pi⟩ : OgreMath ℝ))
      fixtureManager (fixtureMarker true false) none
      (fixtureMessage "/base" ⟨0, 1, 1⟩ [])).2 = [⟨1, 1 / 2, 0, 1⟩] :=
  color_passthrough Arith.exact
    (OgreLibrary.exact (⟨Real.sqrt, Real.sin, Real.cos, Real.pi⟩ : OgreMath ℝ))
    fixtureManager (fixtureMarker true false) none
    (fixtureMessage "/base" ⟨0, 1, 1⟩ []) (Or.inl rfl)

/-- C7, as stated, fails because the transformed points are narrowed from `double` to
`float` (lines 124-125): the transformed points `(0,0,1000)` and `(0,0,1000 + 2^-17)` are
distinct, the unit vector from the first to the second is `(0,0,1)`, but both narrow to
the binary32 point `(0,0,1000)`, the direction is zero, and the orientation applied is the
identity, which leaves the canonical axis `(0,0,-1)` where it is. -/
theorem orientation_after_narrowing :
    (⟨0, 0, 1000⟩ : Point ℝ) ≠ ⟨0, 0, 1000 + 1 / 131072⟩ ∧
    transformRequests (onNewMessage Arith.narrowing
      (OgreLibrary.exact (⟨Real.sqrt, Real.sin, Real.cos, Real.pi⟩ : OgreMath ℝ))
      fixtureManager (fixtureMarker true false) none
      (fixtureMessage "/base" ⟨1 / 2, 1 / 3, 0⟩
        [⟨-1, -2, 997⟩, ⟨-1, -2, 997 + 1 / 131072⟩])).2 =
      [("/map", ⟨⟨0, 0, 1000⟩, 5, "/base"⟩),
       ("/map", ⟨⟨0, 0, 1000 + 1 / 131072⟩, 5, "/base"⟩)] ∧
    unitVector (⟨Real.sqrt, Real.sin, Real.cos, Real.pi⟩ : OgreMath ℝ)
      ⟨0, 0, 1000⟩ ⟨0, 0, 1000 + 1 / 131072⟩ = ⟨0, 0, 1⟩ ∧
    appliedOrientation (onNewMessage Arith.narrowing
      (OgreLibrary.exact (⟨Real.sqrt, Real.sin, Real.cos, Real.pi⟩ : OgreMath ℝ))
      fixtureManager (fixtureMarker true false) none
      (fixtureMessage "/base" ⟨1 / 2, 1 / 3, 0⟩
        [⟨-1, -2, 997⟩, ⟨-1, -2, 997 + 1 / 131072⟩])).2 = some Quaternion.IDENTITY ∧
    (Quaternion.IDENTITY : Quaternion ℝ).rotate Vector3.NEGATIVE_UNIT_Z ≠ ⟨0, 0, 1⟩ := by
  have hm : (⟨Real.sqrt, Real.sin, Real.cos, Real.pi⟩ : OgreMath ℝ).Exact :=
    ⟨fun x => Real.sqrt_nonneg x, fun x hx => Real.mul_self_sqrt hx,
      by
        show Real.cos (1 / 2 * Real.pi) = 0
        rw [show (1 / 2 * Real.pi) = Real.pi / 2 by ring]
        exact Real.cos_pi_div_two,
      by
        show Real.sin (1 / 2 * Real.pi) = 1
        rw [show (1 / 2 * Real.pi) = Real.pi / 2 by ring]
        exact Real.sin_pi_div_two⟩
  have hlen : (fixtureMessage "/base" (⟨1 / 2, 1 / 3, 0⟩ : Vector3 ℝ)
      [⟨-1, -2, 997⟩, ⟨-1, -2, 997 + 1 / 131072⟩]).points.length = 2 := rfl
  have h1 : (fixtureManager : VisualizationManager ℝ ℝ).transformPoint
      (fixtureManager : VisualizationManager ℝ ℝ).getFixedFrame
      (offsetPoint Arith.narrowing (fixtureMessage "/base" (⟨1 / 2, 1 / 3, 0⟩ : Vector3 ℝ)
        [⟨-1, -2, 997⟩, ⟨-1, -2, 997 + 1 / 131072⟩]) 0) = Except.ok ⟨0, 0, 1000⟩ := by
    rw [fixtureManager_ok]
    norm_num [offsetPoint, fixtureMessage, Point.add, Arith.narrowing, Arith.exact]
  have h2 : (fixtureManager : VisualizationManager ℝ ℝ).transformPoint
      (fixtureManager : VisualizationManager ℝ ℝ).getFixedFrame
      (offsetPoint Arith.narrowing (fixtureMessage "/base" (⟨1 / 2, 1 / 3, 0⟩ : Vector3 ℝ)
        [⟨-1, -2, 997⟩, ⟨-1, -2, 997 + 1 / 131072⟩]) 1) =
        Except.ok ⟨0, 0, 1000 + 1 / 131072⟩ := by
    rw [fixtureManager_ok]
    norm_num [offsetPoint, fixtureMessage, Point.add, Arith.narrowing, Arith.exact]
  have e0 : offsetPoint Arith.narrowing (fixtureMessage "/base" (⟨1 / 2, 1 / 3, 0⟩ : Vector3 ℝ)
      [⟨-1, -2, 997⟩, ⟨-1, -2, 997 + 1 / 131072⟩]) 0 = ⟨⟨0, 0, 1000⟩, 5, "/base"⟩ := by
    norm_num [offsetPoint, fixtureMessage, Point.add, Arith.narrowing, Arith.exact]
  have e1 : offsetPoint Arith.narrowing (fixtureMessage "/base" (⟨1 / 2, 1 / 3, 0⟩ : Vector3 ℝ)
      [⟨-1, -2, 997⟩, ⟨-1, -2, 997 + 1 / 131072⟩]) 1 =
        ⟨⟨0, 0, 1000 + 1 / 131072⟩, 5, "/base"⟩ := by
    norm_num [offsetPoint, fixtureMessage, Point.add, Arith.narrowing, Arith.exact]
  have hdir : Vector3.sub
      (⟨toBinary32 (0 : ℝ), toBinary32 (0 : ℝ), toBinary32 ((1000 : ℝ) + 1 / 131072)⟩ :
        Vector3 ℝ)
      ⟨toBinary32 (0 : ℝ), toBinary32 (0 : ℝ), toBinary32 (1000 : ℝ)⟩ = ⟨0, 0, 0⟩ := by
    rw [toBinary32_zero, toBinary32_1000, toBinary32_near_1000]
    simp [Vector3.sub]
  have h0 : Real.sqrt 0 = 0 := Real.sqrt_zero
  have hn0 : Vector3.normalise (⟨Real.sqrt, Real.sin, Real.cos, Real.pi⟩ : OgreMath ℝ)
      (⟨0, 0, 0⟩ : Vector3 ℝ) = ⟨0, 0, 0⟩ := by
    simp [Vector3.normalise, Vector3.length, Vector3.squaredLength]
  refine ⟨?_, ?_, ?_, ?_, ?_⟩
  · intro hc
    simp only [Point.mk.injEq, true_and] at hc
    norm_num at hc
  · rw [onNewMessage_resolved Arith.narrowing _ fixtureManager _ none _
      (le_of_eq hlen.symm) ⟨0, 0, 1000⟩ ⟨0, 0, 1000 + 1 / 131072⟩ h1 h2, e0, e1]
    simp [afterCreation, fixtureMarker, transformRequests, fixtureManager]
  · have hsq : Real.sqrt (((1000 : ℝ) + 1 / 131072 - 1000) * (1000 + 1 / 131072 - 1000)) =
        1 / 131072 := by
      rw [show ((1000 : ℝ) + 1 / 131072 - 1000) = 1 / 131072 by ring]
      exact Real.sqrt_mul_self (by norm_num)
    simp only [unitVector, euclideanDistance, sub_self, mul_zero, zero_add, hsq, zero_div]
    norm_num
  · rw [onNewMessage_resolved Arith.narrowing _ fixtureManager _ none _
      (le_of_eq hlen.symm) ⟨0, 0, 1000⟩ ⟨0, 0, 1000 + 1 / 131072⟩ h1 h2]
    have hq : (OgreLibrary.exact (⟨Real.sqrt, Real.sin, Real.cos, Real.pi⟩ : OgreMath ℝ)).getRotationTo
        (OgreLibrary.exact (⟨Real.sqrt, Real.sin, Real.cos, Real.pi⟩ : OgreMath ℝ)).NEGATIVE_UNIT_Z
        ((OgreLibrary.exact (⟨Real.sqrt, Real.sin, Real.cos, Real.pi⟩ : OgreMath ℝ)).normalise
          ((OgreLibrary.exact (⟨Real.sqrt, Real.sin, Real.cos, Real.pi⟩ : OgreMath ℝ)).sub
            ⟨(Arith.narrowing : Arith ℝ ℝ).toFloat 0, (Arith.narrowing : Arith ℝ ℝ).toFloat 0,
              (Arith.narrowing : Arith ℝ ℝ).toFloat (1000 + 1 / 131072)⟩
            ⟨(Arith.narrowing : Arith ℝ ℝ).toFloat 0, (Arith.narrowing : Arith ℝ ℝ).toFloat 0,
              (Arith.narrowing : Arith ℝ ℝ).toFloat 1000⟩)) = Quaternion.IDENTITY := by
      show Vector3.getRotationTo _ Vector3.NEGATIVE_UNIT_Z
        (Vector3.normalise _ (Vector3.sub
          ⟨toBinary32 (0 : ℝ), toBinary32 (0 : ℝ), toBinary32 ((1000 : ℝ) + 1 / 131072)⟩
          ⟨toBinary32 (0 : ℝ), toBinary32 (0 : ℝ), toBinary32 (1000 : ℝ)⟩)) = _
      rw [hdir, hn0, Vector3.getRotationTo_zero hm]
    rw [hq]
    simp [afterCreation, fixtureMarker, appliedOrientation]
  · simp [Quaternion.IDENTITY, Quaternion.rotate, Quaternion.mul, Quaternion.conj,
      Quaternion.ofVector, Vector3.NEGATIVE_UNIT_Z]
    norm_num

/-- C7 (amended): in exact arithmetic, that of the `double` to `float` conversion included
and with exact library operations, for every message with at least two points whose
transformed points are distinct, the orientation applied to the scene node is a unit
quaternion that rotates the canonical axis `(0,0,-1)` onto the unit vector from the first
transformed point to the second, and the position applied is the first transformed point.
When the second point lies straight along the canonical axis from the first, the
orientation is the identity. -/
theorem two_point_orientation {K : Type} [LinearOrderedField K] (m : OgreMath K)
    (vm : VisualizationManager K K)
    (self : ArrowMarker) (old_message : Option (Marker K K)) (new_message : Marker K K)
    (hm : m.Exact) (h : 2 ≤ new_message.points.length) (t_p1 t_p2 : Point K)
    (h1 : vm.transformPoint vm.getFixedFrame (offsetPoint Arith.exact new_message 0) =
      Except.ok t_p1)
    (h2 : vm.transformPoint vm.getFixedFrame (offsetPoint Arith.exact new_message 1) =
      Except.ok t_p2)
    (hne : t_p1 ≠ t_p2) :
    ∃ q : Quaternion K,
      appliedOrientation
        (onNewMessage Arith.exact (OgreLibrary.exact m) vm self old_message new_message).2 =
          some q ∧
      q.normSq = 1 ∧
      q.rotate Vector3.NEGATIVE_UNIT_Z = unitVector m t_p1 t_p2 ∧
      (unitVector m t_p1 t_p2).squaredLength = 1 ∧
      appliedPosition
        (onNewMessage Arith.exact (OgreLibrary.exact m) vm self old_message new_message).2 =
          some ⟨t_p1.x, t_p1.y, t_p1.z⟩ ∧
      (t_p2.x = t_p1.x → t_p2.y = t_p1.y → t_p2.z < t_p1.z → q = Quaternion.IDENTITY) := by
  obtain ⟨hdpos, hdd, hnorm, hunit⟩ := normalise_direction hm t_p1 t_p2 hne
  obtain ⟨hq1, hq2, hq3⟩ := Vector3.getRotationTo_negZ hm (unitVector m t_p1 t_p2) hunit
  refine ⟨Vector3.NEGATIVE_UNIT_Z.getRotationTo m (unitVector m t_p1 t_p2), ?_, hq1, hq2,
    hunit, ?_, ?_⟩
  · rw [onNewMessage_resolved Arith.exact (OgreLibrary.exact m) vm self old_message
      new_message h t_p1 t_p2 h1 h2]
    have hq : (OgreLibrary.exact m).getRotationTo (OgreLibrary.exact m).NEGATIVE_UNIT_Z
        ((OgreLibrary.exact m).normalise ((OgreLibrary.exact m).sub
          ⟨(Arith.exact : Arith K K).toFloat t_p2.x, (Arith.exact : Arith K K).toFloat t_p2.y,
            (Arith.exact : Arith K K).toFloat t_p2.z⟩
          ⟨(Arith.exact : Arith K K).toFloat t_p1.x, (Arith.exact : Arith K K).toFloat t_p1.y,
            (Arith.exact : Arith K K).toFloat t_p1.z⟩)) =
        Vector3.NEGATIVE_UNIT_Z.getRotationTo m (unitVector m t_p1 t_p2) := by
      rw [← hnorm]
      rfl
    rw [hq]
    cases ha : self.arrow_ <;> simp [afterCreation, ha, appliedOrientation]
  · rw [onNewMessage_resolved Arith.exact (OgreLibrary.exact m) vm self old_message
      new_message h t_p1 t_p2 h1 h2]
    cases ha : self.arrow_ <;> simp [afterCreation, ha, appliedPosition, Arith.exact]
  · intro ex ey ez
    apply hq3
    have hdz : euclideanDistance m t_p1 t_p2 = t_p1.z - t_p2.z := by
      have hprod : (euclideanDistance m t_p1 t_p2 - (t_p1.z - t_p2.z)) *
          (euclideanDistance m t_p1 t_p2 + (t_p1.z - t_p2.z)) = 0 := by
        have e : (euclideanDistance m t_p1 t_p2 - (t_p1.z - t_p2.z)) *
            (euclideanDistance m t_p1 t_p2 + (t_p1.z - t_p2.z)) =
            euclideanDistance m t_p1 t_p2 * euclideanDistance m t_p1 t_p2 -
              (t_p1.z - t_p2.z) * (t_p1.z - t_p2.z) := by ring
        rw [e, hdd, ex, ey]
        ring
      rcases mul_eq_zero.mp hprod with h0 | h0
      · linarith
      · linarith
    have hzne : t_p1.z - t_p2.z ≠ 0 := by
      intro h0
      linarith
    simp only [unitVector, hdz, ex, ey, Vector3.NEGATIVE_UNIT_Z, sub_self, zero_div,
      Vector3.mk.injEq, true_and]
    field_simp

/-- Witness for C7 (amended), over the reals: transformed points `(0,0,0)` and `(0,0,-5)`;
the orientation applied is the identity and the position applied is `(0,0,0)`. -/
theorem two_point_orientation_witness :
    appliedOrientation (onNewMessage Arith.exact
      (OgreLibrary.exact (⟨Real.sqrt, Real.sin, Real.cos, Real.pi⟩ : OgreMath ℝ))
      fixtureManager (fixtureMarker true false) none
      (fixtureMessage "/base" ⟨1 / 2, 1 / 3, 0⟩ [⟨-1, -2, -3⟩, ⟨-1, -2, -8⟩])).2 =
        some Quaternion.IDENTITY ∧
    appliedPosition (onNewMessage Arith.exact
      (OgreLibrary.exact (⟨Real.sqrt, Real.sin, Real.cos, Real.pi⟩ : OgreMath ℝ))
      fixtureManager (fixtureMarker true false) none
      (fixtureMessage "/base" ⟨1 / 2, 1 / 3, 0⟩ [⟨-1, -2, -3⟩, ⟨-1, -2, -8⟩])).2 =
        some ⟨0, 0, 0⟩ := by
  have hm : (⟨Real.sqrt, Real.sin, Real.cos, Real.pi⟩ : OgreMath ℝ).Exact :=
    ⟨fun x => Real.sqrt_nonneg x, fun x hx => Real.mul_self_sqrt hx,
      by
        show Real.cos (1 / 2 * Real.pi) = 0
        rw [show (1 / 2 * Real.pi) = Real.pi / 2 by ring]
        exact Real.cos_pi_div_two,
      by
        show Real.sin (1 / 2 * Real.pi) = 1
        rw [show (1 / 2 * Real.pi) = Real.pi / 2 by ring]
        exact Real.sin_pi_div_two⟩
  obtain ⟨q, hq, _, _, _, hpos, hid⟩ :=
    two_point_orientation (⟨Real.sqrt, Real.sin, Real.cos, Real.pi⟩ : OgreMath ℝ)
      fixtureManager (fixtureMarker true false) none
      (fixtureMessage "/base" ⟨1 / 2, 1 / 3, 0⟩ [⟨-1, -2, -3⟩, ⟨-1, -2, -8⟩])
      hm (by simp [fixtureMessage]) ⟨0, 0, 0⟩ ⟨0, 0, -5⟩
      (by rw [fixtureManager_ok]
          norm_num [offsetPoint, fixtureMessage, Point.add, Arith.exact])
      (by rw [fixtureManager_ok]
          norm_num [offsetPoint, fixtureMessage, Point.add, Arith.exact])
      (by simp)
  have hqid : q = Quaternion.IDENTITY := hid rfl rfl (by norm_num)
  rw [hqid] at hq
  exact ⟨hq, hpos⟩

/-- C8: whatever the arithmetic, two messages with at least two points that differ only in
the points after index 1 give the same marker and the same calls, for the same services and
the same marker at entry; and the requests made to the transform service are
`points[0] + pose.position` and then, when the first succeeds, `points[1] + pose.position`,
each at `header.stamp` in `header.frame_id`, with the fixed frame as target. -/
theorem only_first_two_points {D F : Type} [Inhabited (Point D)] (A : Arith D F)
    (O : OgreLibrary F) (vm : VisualizationManager D F)
    (self : ArrowMarker) (old_message : Option (Marker D F)) (new_message : Marker D F)
    (p0 p1 : Point D) (rest rest2 : List (Point D)) :
    onNewMessage A O vm self old_message { new_message with points := p0 :: p1 :: rest } =
      onNewMessage A O vm self old_message
        { new_message with points := p0 :: p1 :: rest2 } ∧
    transformRequests
        (onNewMessage A O vm self old_message
          { new_message with points := p0 :: p1 :: rest }).2 =
      (vm.getFixedFrame, (⟨p0.add A new_message.pose.position, new_message.header.stamp,
          new_message.header.frame_id⟩ : Stamped D)) ::
        (match vm.transformPoint vm.getFixedFrame ⟨p0.add A new_message.pose.position,
            new_message.header.stamp, new_message.header.frame_id⟩ with
          | Except.ok _ =>
            [(vm.getFixedFrame, (⟨p1.add A new_message.pose.position,
              new_message.header.stamp, new_message.header.frame_id⟩ : Stamped D))]
          | Except.error _ => []) := by
  have hl : ∀ r : List (Point D),
      2 ≤ ({ new_message with points := p0 :: p1 :: r } : Marker D F).points.length := by
    intro r
    simp
  have e0 : ∀ r : List (Point D),
      offsetPoint A ({ new_message with points := p0 :: p1 :: r } : Marker D F) 0 =
        ⟨p0.add A new_message.pose.position, new_message.header.stamp,
          new_message.header.frame_id⟩ := by
    intro r
    simp [offsetPoint]
  have e1 : ∀ r : List (Point D),
      offsetPoint A ({ new_message with points := p0 :: p1 :: r } : Marker D F) 1 =
        ⟨p1.add A new_message.pose.position, new_message.header.stamp,
          new_message.header.frame_id⟩ := by
    intro r
    simp [offsetPoint]
  cases h1 : vm.transformPoint vm.getFixedFrame ⟨p0.add A new_message.pose.position,
      new_message.header.stamp, new_message.header.frame_id⟩ with
  | error e =>
    rw [onNewMessage_fail_first A O vm self old_message _ (hl rest) e (by rw [e0]; exact h1),
      onNewMessage_fail_first A O vm self old_message _ (hl rest2) e (by rw [e0]; exact h1)]
    cases ha : self.arrow_ <;>
      simp [afterCreation, ha, transformRequests, transformErrorText, offsetPoint]
  | ok t_p1 =>
    cases h2 : vm.transformPoint vm.getFixedFrame ⟨p1.add A new_message.pose.position,
        new_message.header.stamp, new_message.header.frame_id⟩ with
    | error e =>
      rw [onNewMessage_fail_second A O vm self old_message _ (hl rest) t_p1 e
          (by rw [e0]; exact h1) (by rw [e1]; exact h2),
        onNewMessage_fail_second A O vm self old_message _ (hl rest2) t_p1 e
          (by rw [e0]; exact h1) (by rw [e1]; exact h2)]
      cases ha : self.arrow_ <;>
        simp [afterCreation, ha, transformRequests, transformErrorText, offsetPoint]
    | ok t_p2 =>
      rw [onNewMessage_resolved A O vm self old_message _ (hl rest) t_p1 t_p2
          (by rw [e0]; exact h1) (by rw [e1]; exact h2),
        onNewMessage_resolved A O vm self old_message _ (hl rest2) t_p1 t_p2
          (by rw [e0]; exact h1) (by rw [e1]; exact h2)]
      cases ha : self.arrow_ <;>
        simp [afterCreation, ha, transformRequests, offsetPoint]

/-- C9: in exact arithmetic, in the two-point branch, provided the library's square root is
never negative, the shaft length set on the arrow is the distance minus the head length,
unclamped: it is negative exactly when `scale.z` exceeds the distance; with `scale.z = 0`
it is 0.9 times the distance and not negative; and shaft length plus head length is the
distance. -/
theorem shaft_length_not_clamped {K : Type} [LinearOrderedField K] (m : OgreMath K)
    (vm : VisualizationManager K K)
    (self : ArrowMarker) (old_message : Option (Marker K K)) (new_message : Marker K K)
    (hsqrt : ∀ x, 0 ≤ m.Sqrt x)
    (h : 2 ≤ new_message.points.length) (t_p1 t_p2 : Point K)
    (h1 : vm.transformPoint vm.getFixedFrame (offsetPoint Arith.exact new_message 0) =
      Except.ok t_p1)
    (h2 : vm.transformPoint vm.getFixedFrame (offsetPoint Arith.exact new_message 1) =
      Except.ok t_p2) :
    ∃ shaft_length head_length : K,
      appliedDimensions
          (onNewMessage Arith.exact (OgreLibrary.exact m) vm self old_message new_message).2 =
        some (shaft_length, new_message.scale.x, head_length, new_message.scale.y) ∧
      shaft_length = euclideanDistance m t_p1 t_p2 - head_length ∧
      (shaft_length < 0 ↔ euclideanDistance m t_p1 t_p2 < new_message.scale.z) ∧
      (new_message.scale.z = 0 →
        shaft_length = (9 / 10) * euclideanDistance m t_p1 t_p2 ∧ 0 ≤ shaft_length) ∧
      shaft_length + head_length = euclideanDistance m t_p1 t_p2 := by
  have hd : 0 ≤ euclideanDistance m t_p1 t_p2 := hsqrt _
  have hdims := two_point_dimensions m vm self old_message new_message h t_p1 t_p2 h1 h2
  by_cases hz : new_message.scale.z = 0
  · refine ⟨euclideanDistance m t_p1 t_p2 - (1 / 10) * euclideanDistance m t_p1 t_p2,
      (1 / 10) * euclideanDistance m t_p1 t_p2, ?_, rfl, ?_, ?_, by ring⟩
    · rw [hdims, if_neg (not_not.mpr hz)]
    · rw [hz]
      constructor
      · intro hneg
        linarith
      · intro hneg
        linarith
    · intro _
      constructor
      · ring
      · linarith
  · refine ⟨euclideanDistance m t_p1 t_p2 - new_message.scale.z, new_message.scale.z,
      ?_, rfl, ?_, ?_, by ring⟩
    · rw [hdims, if_pos hz]
    · constructor
      · intro hneg
        linarith
      · intro hneg
        linarith
    · intro h0
      exact absurd h0 hz

/-- Witness for C9, over the reals: transformed points `(0,0,0)` and `(0,3,4)`, at distance
5, with `scale.z = 30`: the shaft length set is `5 - 30 = -25`. -/
theorem shaft_length_not_clamped_witness :
    ∃ shaft_length head_length : ℝ,
      appliedDimensions (onNewMessage Arith.exact
        (OgreLibrary.exact (⟨Real.sqrt, Real.sin, Real.cos, Real.pi⟩ : OgreMath ℝ))
        fixtureManager (fixtureMarker true false) none
        (fixtureMessage "/base" ⟨1 / 2, 1 / 3, 30⟩ [⟨-1, -2, -3⟩, ⟨-1, 1, 1⟩])).2 =
          some (shaft_length, 1 / 2, head_length, 1 / 3) ∧
      shaft_length < 0 ∧ shaft_length + head_length =
        euclideanDistance (⟨Real.sqrt, Real.sin, Real.cos, Real.pi⟩ : OgreMath ℝ)
          ⟨0, 0, 0⟩ ⟨0, 3, 4⟩ := by
  have hd : euclideanDistance (⟨Real.sqrt, Real.sin, Real.cos, Real.pi⟩ : OgreMath ℝ)
      ⟨0, 0, 0⟩ ⟨0, 3, 4⟩ = 5 := by
    have e : ((0 : ℝ) - 0) * (0 - 0) + (3 - 0) * (3 - 0) + (4 - 0) * (4 - 0) = 5 * 5 := by
      norm_num
    simp only [euclideanDistance, e]
    exact Real.sqrt_mul_self (by norm_num)
  obtain ⟨s, hl, hset, _, hneg, _, hsum⟩ :=
    shaft_length_not_clamped (⟨Real.sqrt, Real.sin, Real.cos, Real.pi⟩ : OgreMath ℝ)
      fixtureManager (fixtureMarker true false) none
      (fixtureMessage "/base" ⟨1 / 2, 1 / 3, 30⟩ [⟨-1, -2, -3⟩, ⟨-1, 1, 1⟩])
      (fun x => Real.sqrt_nonneg x) (by simp [fixtureMessage]) ⟨0, 0, 0⟩ ⟨0, 3, 4⟩
      (by rw [fixtureManager_ok]
          norm_num [offsetPoint, fixtureMessage, Point.add, Arith.exact])
      (by rw [fixtureManager_ok]
          norm_num [offsetPoint, fixtureMessage, Point.add, Arith.exact])
  refine ⟨s, hl, hset, hneg.mpr ?_, hsum⟩
  rw [hd]
  norm_num [fixtureMessage]

/-- C10: over every sequence of `onNewMessage` calls on one marker, from any marker state
and whatever the arithmetic: the calls are those of `onNewMessage` on the messages in
order, each from the marker the calls before it left, so that a primitive exists at the
entry of a call exactly when the last `new` or `delete` before it was a `new` (or, without
any, when one existed at the start).  A call creates a new arrow primitive exactly when no
primitive exists at its entry and its message does not have exactly one point; in that
case it registers with the selection manager once, with the identity `(ns, id)` of its
message; otherwise, and in particular whenever a primitive exists at its entry, it does not
register at all. -/
theorem registration_once_per_creation {D F : Type} [Inhabited (Point D)] (A : Arith D F)
    (O : OgreLibrary F) (vm : VisualizationManager D F)
    (self : ArrowMarker) (old_message : Option (Marker D F))
    (messages : List (Marker D F)) :
    (run A O vm self old_message messages).map Call.message = messages ∧
    ∀ (pre : List (Call D F)) (c : Call D F) (post : List (Call D F)),
      run A O vm self old_message messages = pre ++ c :: post →
      c.before.arrow_ = primitiveAfter self.arrow_ pre ∧
      c.events = (onNewMessage A O vm c.before c.old_message c.message).2 ∧
      (Event.newArrow ∈ c.events ↔
        (primitiveAfter self.arrow_ pre = false ∧ c.message.points.length ≠ 1)) ∧
      (Event.newArrow ∈ c.events →
        registrations c.events = [⟨c.message.ns, c.message.id⟩]) ∧
      (Event.newArrow ∉ c.events → registrations c.events = []) ∧
      (primitiveAfter self.arrow_ pre = true → registrations c.events = []) := by
  induction messages generalizing self old_message with
  | nil =>
    refine ⟨by simp [run], ?_⟩
    intro pre c post hrun
    simp [run] at hrun
  | cons new_message rest ih =>
    obtain ⟨ihmap, ihcalls⟩ := ih (onNewMessage A O vm self old_message new_message).1
      (some new_message)
    refine ⟨by simp [run, ihmap], ?_⟩
    intro pre c post hrun
    cases pre with
    | nil =>
      simp only [run, List.nil_append, List.cons.injEq] at hrun
      obtain ⟨hc, _⟩ := hrun
      subst hc
      obtain ⟨hreg, hnew⟩ := registrations_onNewMessage A O vm self old_message new_message
      refine ⟨rfl, rfl, hnew, fun hmem => ?_, fun hmem => ?_, fun harrow => ?_⟩
      · show registrations (onNewMessage A O vm self old_message new_message).2 = _
        rw [hreg, if_pos (hnew.mp hmem)]
      · show registrations (onNewMessage A O vm self old_message new_message).2 = _
        rw [hreg, if_neg (fun hc => hmem (hnew.mpr hc))]
      · show registrations (onNewMessage A O vm self old_message new_message).2 = _
        rw [hreg, if_neg]
        intro hc
        have harrow2 : self.arrow_ = true := harrow
        rw [harrow2] at hc
        exact absurd hc.1 (by simp)
    | cons c0 pre2 =>
      simp only [run, List.cons_append, List.cons.injEq] at hrun
      obtain ⟨hc0, hrest⟩ := hrun
      have hstate : primitiveAfter self.arrow_ (c0 :: pre2) =
          primitiveAfter (onNewMessage A O vm self old_message new_message).1.arrow_
            pre2 := by
        rw [primitiveExists_onNewMessage A O vm self old_message new_message, ← hc0]
        rfl
      rw [hstate]
      exact ihcalls pre2 c post hrest

/-- Witness for C10: three pose-based messages delivered to a marker without primitive.  The
first call creates the primitive and registers once, as `("demo", 7)`; the second call,
which finds the primitive, does not register. -/
theorem registration_once_per_creation_witness :
    registrations (onNewMessage Arith.exact
      (OgreLibrary.exact (⟨Real.sqrt, Real.sin, Real.cos, Real.pi⟩ : OgreMath ℝ))
      fixtureManager (fixtureMarker true false) none
      (fixtureMessage "/base" ⟨1, 1, 1⟩ [])).2 = [⟨"demo", 7⟩] ∧
    registrations (onNewMessage Arith.exact
      (OgreLibrary.exact (⟨Real.sqrt, Real.sin, Real.cos, Real.pi⟩ : OgreMath ℝ))
      fixtureManager
      (onNewMessage Arith.exact
        (OgreLibrary.exact (⟨Real.sqrt, Real.sin, Real.cos, Real.pi⟩ : OgreMath ℝ))
        fixtureManager (fixtureMarker true false) none
        (fixtureMessage "/base" ⟨1, 1, 1⟩ [])).1
      (some (fixtureMessage "/base" ⟨1, 1, 1⟩ []))
      (fixtureMessage "/base" ⟨1, 1, 1⟩ [])).2 = [] := by
  have w := (registration_once_per_creation Arith.exact
    (OgreLibrary.exact (⟨Real.sqrt, Real.sin, Real.cos, Real.pi⟩ : OgreMath ℝ))
    fixtureManager (fixtureMarker true false) none
    [fixtureMessage "/base" ⟨1, 1, 1⟩ [], fixtureMessage "/base" ⟨1, 1, 1⟩ [],
      fixtureMessage "/base" ⟨1, 1, 1⟩ []]).2
  have hfirst : primitiveExists false (onNewMessage Arith.exact
      (OgreLibrary.exact (⟨Real.sqrt, Real.sin, Real.cos, Real.pi⟩ : OgreMath ℝ))
      fixtureManager (fixtureMarker true false) none
      (fixtureMessage "/base" (⟨1, 1, 1⟩ : Vector3 ℝ) [])).2 = true := by
    rw [onNewMessage_nil _ _ _ _ _ _ rfl]
    simp [afterCreation, scaleWarning, fixtureMarker, fixtureMessage, primitiveExists,
      Arith.exact]
  have w1 := w [] _ _ rfl
  have w2 := w [_] _ _ rfl
  exact ⟨w1.2.2.2.1 (w1.2.2.1.mpr ⟨rfl, by simp [fixtureMessage]⟩),
    w2.2.2.2.2.2 hfirst⟩

end Theorems

end rviz
